import Mathlib

/-!
# Kraken portfolio client: a shallow embedding

The exchange client of `internal/api/kraken.go`, with `internal/models/types.go`
and `pkg/utils/utils.go`, and the display of `internal/ui/display.go`, as pure
Lean functions.

* `float64` is an arbitrary type `F` carrying the operations the code uses
  (`0`, `1`, `+`, `*`, `<`, `≤`); nothing below depends on how these round.
* A Go `map[string]T` is the list of its entries, in the order a `range` loop
  visits them; a map holds each key once (`GoMap.WF`).
* Input and output (the HTTP exchange, the socket) enter as the outcome they
  produced and leave as the list of calls made; the display returns the text it
  writes.
* Bytes are natural numbers below 256. The standard-library functions behind
  `GenerateSignature` (`base64.StdEncoding`, `sha256`, `sha512`, `hmac`) are
  written out after their specifications (RFC 4648, FIPS 180-4, RFC 2104).
* The scanner of `fmt.Sscanf`, the float formatting of `fmt` and `sort.Slice`
  are arguments of the functions that call them.
-/

namespace Kraken

/-! ## Go maps -/

/-- A `map[string]T`: its entries in iteration order. -/
abbrev GoMap (α : Type) := List (String × α)

namespace GoMap

/-- The keys of a map, in iteration order. -/
def keys {α : Type} (m : GoMap α) : List String := m.map Prod.fst

/-- A map holds every key at most once. -/
def WF {α : Type} (m : GoMap α) : Prop := (keys m).Nodup

instance {α : Type} (m : GoMap α) : Decidable (WF m) := by
  unfold WF; infer_instance

/-- The two-result lookup `v, ok := m[k]`. -/
def get? {α : Type} (m : GoMap α) (k : String) : Option α :=
  match m with
  | [] => none
  | (k', v) :: rest => if k' = k then some v else get? rest k

/-- The one-result lookup `m[k]`: the zero value when the key is absent. -/
def index {α : Type} [Zero α] (m : GoMap α) (k : String) : α :=
  (get? m k).getD 0

/-- The assignment `m[k] = v`. -/
def set {α : Type} (m : GoMap α) (k : String) (v : α) : GoMap α :=
  match m with
  | [] => [(k, v)]
  | (k', v') :: rest => if k' = k then (k, v) :: rest else (k', v') :: set rest k v

end GoMap

/-! ## Library functions the client calls -/

/-- Drops the characters of `pre` from the front of `s`, when `s` starts with them. -/
def dropChars : List Char → List Char → Option (List Char)
  | s, [] => some s
  | [], _ :: _ => none
  | c :: s, p :: pre => if c = p then dropChars s pre else none

/-- The function `strings.TrimPrefix(s, prefix)`: `s` without the leading
`prefix`, or `s` itself when it does not start with `prefix`. -/
def TrimPrefix (s pre : String) : String :=
  match dropChars s.data pre.data with
  | some rest => String.mk rest
  | none => s

/-- How `fmt` prints a `[]string` under `%v`: the elements between brackets,
separated by single spaces. -/
def formatStrings (xs : List String) : String :=
  "[" ++ String.intercalate " " xs ++ "]"

/-! ## `pkg/utils/utils.go` -/

/-- The function `ParseFloat(s)`: `fmt.Sscanf(s, "%f", &val)`. The scanner is
the argument `sscanf`, which gives the scanned value when `Sscanf` returns a nil
error and `none` when it returns an error. -/
def ParseFloat {F : Type} (sscanf : String → Option F) (s : String) : Option F :=
  sscanf s

/-! ## `internal/models/types.go` -/

/-- The record `BalanceResponse`, as decoded from the JSON envelope. -/
structure BalanceResponse where
  Error : List String
  Result : GoMap String
deriving DecidableEq, Repr

/-- The record `AssetValue`. -/
structure AssetValue (F : Type) where
  Asset : String
  Balance : F
  Price : F
  PrevPrice : F
  USDValue : F
deriving DecidableEq, Repr

/-- The table `AssetMapping`. -/
def AssetMapping : GoMap String :=
  [("XETH", "ETH/USD"), ("SOL", "SOL/USD"), ("XXBT", "XBT/USD"), ("ZUSD", "USD")]

/-! ## The client (`internal/api/kraken.go`) -/

/-- The message `Connect` writes: the map literal with keys `event`, `pair` and
`subscription`. -/
structure SubscribeMessage where
  event : String
  pair : List String
  subscription : GoMap String
deriving DecidableEq, Repr

/-- The stream connection `*websocket.Conn`, seen through the calls made on it:
the messages handed to `WriteJSON` and the number of `Close` calls. -/
structure Conn where
  writes : List SubscribeMessage
  closes : Nat
deriving DecidableEq, Repr

/-- The call `conn.WriteJSON(msg)`, recorded on the connection. -/
def Conn.WriteJSON (conn : Conn) (msg : SubscribeMessage) : Conn :=
  { conn with writes := conn.writes ++ [msg] }

/-- The record `Client`; `Config` holds the two credential strings. A nil
`WsConn` is `none`. -/
structure Client (F : Type) where
  ApiKey : String
  ApiSecret : String
  WsConn : Option Conn
  Prices : GoMap F
  PrevPrices : GoMap F
  Balances : GoMap F
deriving DecidableEq, Repr

/-- The constructor `NewClient(cfg)`: three empty maps, no connection. -/
def NewClient {F : Type} (apiKey apiSecret : String) : Client F :=
  { ApiKey := apiKey, ApiSecret := apiSecret, WsConn := none,
    Prices := [], PrevPrices := [], Balances := [] }

/-- The loop body of `GetBalances`: keep the entry when its string parses
without error to a value above zero. -/
def addBalance {F : Type} [Zero F] [LT F] [DecidableRel (LT.lt : F → F → Prop)]
    (sscanf : String → Option F) (balances : GoMap F) (entry : String × String) : GoMap F :=
  match ParseFloat sscanf entry.2 with
  | some bal => if 0 < bal then GoMap.set balances entry.1 bal else balances
  | none => balances

/-- The method `GetBalances`. The signed HTTP exchange and the JSON decoding
(everything up to the decoded `balanceResp`) enter as `fetch`: the error that
made the method return early, or the decoded response. The result is the
returned error (`none` for nil) and the client afterwards. -/
def GetBalances {F : Type} [Zero F] [LT F] [DecidableRel (LT.lt : F → F → Prop)]
    (sscanf : String → Option F) (c : Client F) (fetch : Except String BalanceResponse) :
    Option String × Client F :=
  match fetch with
  | .error err => (some err, c)
  | .ok balanceResp =>
    if balanceResp.Error.length > 0 then
      (some ("API error: " ++ formatStrings balanceResp.Error), c)
    else
      (none, { c with Balances := balanceResp.Result.foldl (addBalance sscanf) [] })

/-- The loop body that builds `pairs` in `Connect`. -/
def addPair {F : Type} (pairs : List String) (entry : String × F) : List String :=
  match GoMap.get? AssetMapping entry.1 with
  | some pair => if pair ≠ "USD" then pairs ++ [pair] else pairs
  | none => pairs

/-- The list `pairs` that `Connect` builds from the balances. -/
def subscriptionPairs {F : Type} (balances : GoMap F) : List String :=
  balances.foldl addPair []

/-- The subscribe message for a list of pairs. -/
def subscribeMessage (pairs : List String) : SubscribeMessage :=
  { event := "subscribe", pair := pairs, subscription := [("name", "ticker")] }

/-- The connection `Dial` returns: nothing written on it, not closed. -/
def Conn.fresh : Conn := { writes := [], closes := 0 }

/-- The method `Connect`. `fetch` is the outcome of the balance request,
`dialErr` the error `Dial` returns (`none` for nil) and `writeErr` the error
`WriteJSON` returns, if it is called. -/
def Connect {F : Type} [Zero F] [LT F] [DecidableRel (LT.lt : F → F → Prop)]
    (sscanf : String → Option F) (c : Client F) (fetch : Except String BalanceResponse)
    (dialErr : Option String) (writeErr : Option String) : Option String × Client F :=
  match GetBalances sscanf c fetch with
  | (some err, c1) => (some ("failed to get balances: " ++ err), c1)
  | (none, c1) =>
    match dialErr with
    | some err => (some ("failed to connect to websocket: " ++ err), c1)
    | none =>
      let conn := Conn.fresh
      let pairs := subscriptionPairs c1.Balances
      if pairs.length > 0 then
        (writeErr, { c1 with WsConn := some (conn.WriteJSON (subscribeMessage pairs)) })
      else
        (none, { c1 with WsConn := some conn })

/-- The method `UpdatePrice`: `PrevPrices[pair] = Prices[pair]`, then
`Prices[pair] = price`. -/
def UpdatePrice {F : Type} [Zero F] (c : Client F) (pair : String) (price : F) : Client F :=
  let c1 := { c with PrevPrices := GoMap.set c.PrevPrices pair (GoMap.index c.Prices pair) }
  { c1 with Prices := GoMap.set c1.Prices pair price }

/-- The method `GetPrice`: `Prices[pair]`. -/
def GetPrice {F : Type} [Zero F] (c : Client F) (pair : String) : F :=
  GoMap.index c.Prices pair

/-- The loop body of `GetAssetValues`. -/
def addAssetValue {F : Type} [Zero F] [One F] [Mul F] (c : Client F)
    (assets : List (AssetValue F)) (entry : String × F) : List (AssetValue F) :=
  let asset := entry.1
  let balance := entry.2
  if asset = "ZUSD" then
    assets ++ [{ Asset := "USD", Balance := balance, Price := 1, PrevPrice := 1,
                 USDValue := balance }]
  else
    match GoMap.get? AssetMapping asset with
    | some pair =>
      let price := GoMap.index c.Prices pair
      let prevPrice := GoMap.index c.PrevPrices pair
      assets ++ [{ Asset := TrimPrefix (TrimPrefix asset "X") "Z", Balance := balance,
                   Price := price, PrevPrice := prevPrice, USDValue := balance * price }]
    | none => assets

/-- The method `GetAssetValues`: one pass over the balances. -/
def GetAssetValues {F : Type} [Zero F] [One F] [Mul F] (c : Client F) : List (AssetValue F) :=
  c.Balances.foldl (addAssetValue c) []

/-- The call `conn.Close()`, recorded on the connection. -/
def Conn.Close (conn : Conn) : Conn :=
  { conn with closes := conn.closes + 1 }

/-- The method `Close`. `closeErr` is the error `WsConn.Close()` returns, if it
is called. The result is the returned error (`none` for nil) and the client
afterwards. -/
def Close {F : Type} (c : Client F) (closeErr : Option String) : Option String × Client F :=
  match c.WsConn with
  | some conn => (closeErr, { c with WsConn := some conn.Close })
  | none => (none, c)

/-! ## The message loop -/

/-- A JSON document, as carried by a `json.RawMessage` that `ReadJSON` accepted.
An object lists its members in document order. -/
inductive JSON where
  | null : JSON
  | bool : Bool → JSON
  | num : ℚ → JSON
  | str : String → JSON
  | arr : List JSON → JSON
  | obj : List (String × JSON) → JSON

/-- The member of a decoded object under key `k`: decoding into a
`map[string]interface{}` stores the members in document order, so the last one
with that key is the one found. -/
def member (members : List (String × JSON)) (k : String) : Option JSON :=
  GoMap.get? members.reverse k

/-- The call `json.Unmarshal(message, &data)` with `data []interface{}`: an
array decodes to its elements, `null` leaves the nil slice, anything else is an
error. -/
def unmarshalSlice : JSON → Option (List JSON)
  | .arr elems => some elems
  | .null => some []
  | _ => none

/-- A run-time panic of the Go program: an index past the end of a slice. -/
inductive Panic where
  | indexOutOfRange (index length : Nat) : Panic
deriving DecidableEq, Repr

deriving instance DecidableEq for Except

/-- What one pass of the loop body does after a successful read: it panics
(`.error`), or it leaves a client and the list of arguments the sink was called
with, in order. -/
abbrev StepResult (F : Type) := Except Panic (Client F × List (List (AssetValue F)))

/-- The body of the loop of `StartStreaming` after a successful `ReadJSON`:
lines 169 to 184. An index past the end of a slice is a run-time panic. -/
def processFrame {F : Type} [Zero F] [One F] [Mul F]
    (sscanf : String → Option F) (c : Client F) (message : JSON) : StepResult F :=
  match unmarshalSlice message with
  | none => .ok (c, [])
  | some data =>
    if data.length > 1 then
      match data.get? 1 with
      | some (.obj tickerData) =>
        match member tickerData "c" with
        | some (.arr closeData) =>
          if closeData.length > 0 then
            match closeData.get? 0 with
            | some (.str price) =>
              match data.get? 3 with
              | none => .error (.indexOutOfRange 3 data.length)
              | some (.str pairInfo) =>
                match ParseFloat sscanf price with
                | some priceVal =>
                  let c1 := UpdatePrice c pairInfo priceVal
                  let assets := GetAssetValues c1
                  .ok (c1, [assets])
                | none => .ok (c, [])
              | some _ => .ok (c, [])
            | _ => .ok (c, [])
          else .ok (c, [])
        | _ => .ok (c, [])
      | _ => .ok (c, [])
    else .ok (c, [])

/-- The method `StartStreaming` on a finite run of reads: each read is an error
(the loop logs it and returns) or a message. The result is the panic that ended
the run, or the client and the sink calls so far. -/
def StartStreaming {F : Type} [Zero F] [One F] [Mul F]
    (sscanf : String → Option F) (c : Client F) (reads : List (Except String JSON)) :
    StepResult F :=
  match reads with
  | [] => .ok (c, [])
  | .error _ :: _ => .ok (c, [])
  | .ok message :: rest =>
    match processFrame sscanf c message with
    | .error e => .error e
    | .ok (c1, calls) =>
      match StartStreaming sscanf c1 rest with
      | .error e => .error e
      | .ok (c2, calls2) => .ok (c2, calls ++ calls2)

/-! ## A scanner for evaluation -/

/-- The value of a decimal digit. -/
def digitValue (ch : Char) : Option Nat :=
  if '0' ≤ ch ∧ ch ≤ '9' then some (ch.toNat - '0'.toNat) else none

/-- Reads the leading decimal digits of the input: the number read so far, how
many digits were read, and the input left. -/
def scanDigits : List Char → Nat → Nat → Nat × Nat × List Char
  | [], acc, n => (acc, n, [])
  | ch :: rest, acc, n =>
    match digitValue ch with
    | some d => scanDigits rest (10 * acc + d) (n + 1)
    | none => (acc, n, ch :: rest)

/-- The sign in front of a number, and the input after it. -/
def scanSign : List Char → Bool × List Char
  | '-' :: rest => (true, rest)
  | '+' :: rest => (false, rest)
  | rest => (false, rest)

/-- What `fmt.Sscanf(s, "%f", &val)` does on a plain decimal numeral: an
optional sign, digits, and optionally a point and more digits, with a digit
somewhere and nothing before or after. The value is the exact rational the
numeral denotes. Every other input is left out of this scanner (`none`); it is
used to evaluate the client on concrete inputs only. -/
def scanDecimal (s : String) : Option ℚ :=
  let signed := scanSign s.data
  let whole := scanDigits signed.2 0 0
  let all := match whole.2.2 with
    | '.' :: rest => (scanDigits rest whole.1 0, whole.2.1)
    | rest => ((whole.1, 0, rest), whole.2.1)
  if all.2 + all.1.2.1 = 0 ∨ all.1.2.2 ≠ [] then none
  else
    let mantissa : ℤ := if signed.1 then -(all.1.1 : ℤ) else (all.1.1 : ℤ)
    some ((mantissa : ℚ) / (10 : ℚ) ^ all.1.2.1)

/-! ## The valuation rule of the specification -/

/-- The rule of the specification for one holding (section 4.5): the fiat
symbol is shown as `USD` at price and previous price 1 and is worth its balance;
a symbol with an instrument mapping is shown without its exchange prefix at the
ledger's current and previous price of its pair and is worth balance times
current price; any other holding gives no record. -/
def valuate {F : Type} [Zero F] [One F] [Mul F] (c : Client F) (holding : String × F) :
    Option (AssetValue F) :=
  if holding.1 = "ZUSD" then
    some { Asset := "USD", Balance := holding.2, Price := 1, PrevPrice := 1,
           USDValue := holding.2 }
  else
    match GoMap.get? AssetMapping holding.1 with
    | some pair =>
      some { Asset := TrimPrefix (TrimPrefix holding.1 "X") "Z", Balance := holding.2,
             Price := GoMap.index c.Prices pair, PrevPrice := GoMap.index c.PrevPrices pair,
             USDValue := holding.2 * GoMap.index c.Prices pair }
    | none => none

/-- A holding that has a record: the fiat symbol or a symbol with a mapping. -/
def hasRecord {F : Type} (holding : String × F) : Bool :=
  decide (holding.1 = "ZUSD") || (GoMap.get? AssetMapping holding.1).isSome

/-- A holding that `Connect` subscribes to: a symbol other than `ZUSD` with an
`AssetMapping` entry. -/
def hasFeed {F : Type} (holding : String × F) : Bool :=
  decide (holding.1 ≠ "ZUSD") && (GoMap.get? AssetMapping holding.1).isSome

/-! ## The ticker frame of the specification -/

/-- The frame shape of the specification (section 4.3): a valid ticker update
is an array of four or more elements whose second element is an object with a
`"c"` member holding an array whose first element is a string the scanner
accepts as a decimal, and whose fourth element is the pair symbol, a string.
The result is the pair symbol and the price of a valid update, `none` for
every other frame. -/
def tickerOf {F : Type} (sscanf : String → Option F) : JSON → Option (String × F)
  | .arr (_ :: .obj tickerData :: _ :: .str pairInfo :: _) =>
    match member tickerData "c" with
    | some (.arr (.str price :: _)) =>
      match ParseFloat sscanf price with
      | some priceVal => some (pairInfo, priceVal)
      | none => none
    | _ => none
  | _ => none

/-- An array of two or three elements whose second element is an object with a
`"c"` member holding an array whose first element is a string. -/
def shortTicker : JSON → Bool
  | .arr [_, .obj tickerData] | .arr [_, .obj tickerData, _] =>
    match member tickerData "c" with
    | some (.arr (.str _ :: _)) => true
    | _ => false
  | _ => false

/-! ## Concrete inputs -/

/-- A client fresh from `NewClient`, over the rationals. -/
def freshClient : Client ℚ := NewClient "key" "c2VjcmV0"

/-- The decoded response `{"error":[],"result":{"XETH":"2.5","SOL":"0","ZUSD":"1000"}}`. -/
def sampleResponse : BalanceResponse :=
  { Error := [], Result := [("XETH", "2.5"), ("SOL", "0"), ("ZUSD", "1000")] }

/-- The frame `[0, {"c":["3050.5","1.2"]}]`. -/
def shortFrame : JSON :=
  .arr [.num 0, .obj [("c", .arr [.str "3050.5", .str "1.2"])]]

/-- The frame `[0, {"c":["3050.5","1.2"]}, "ticker", "ETH/USD"]`. -/
def tickerFrame : JSON :=
  .arr [.num 0, .obj [("c", .arr [.str "3050.5", .str "1.2"])], .str "ticker", .str "ETH/USD"]

/-- The frame `[0, {"c":["3000","0.7"]}, "ticker", "ETH/USD"]`. -/
def frame3000 : JSON :=
  .arr [.num 0, .obj [("c", .arr [.str "3000", .str "0.7"])], .str "ticker", .str "ETH/USD"]

/-- The frame `[0, {"c":["3100","0.4"]}, "ticker", "ETH/USD"]`. -/
def frame3100 : JSON :=
  .arr [.num 0, .obj [("c", .arr [.str "3100", .str "0.4"])], .str "ticker", .str "ETH/USD"]

/-- A client fresh from `NewClient` whose holdings are `{XETH: b}`. -/
def holdingXETH {F : Type} (apiKey apiSecret : String) (b : F) : Client F :=
  { (NewClient apiKey apiSecret : Client F) with Balances := [("XETH", b)] }

/-- The decoded response `{"error":["EAPI:Invalid key"],"result":{"XETH":"2.5"}}`. -/
def rejectedResponse : BalanceResponse :=
  { Error := ["EAPI:Invalid key"], Result := [("XETH", "2.5")] }

/-- A client holding `{XETH: 2.5, ZUSD: 1000}` after one `ETH/USD` tick at 3000. -/
def sampleClient : Client ℚ :=
  UpdatePrice { freshClient with Balances := [("XETH", 5 / 2), ("ZUSD", 1000)] } "ETH/USD" 3000

/-- The frame `[0, {"c":["-5","1.2"]}, "ticker", "ETH/USD"]`. -/
def negativeFrame : JSON :=
  .arr [.num 0, .obj [("c", .arr [.str "-5", .str "1.2"])], .str "ticker", .str "ETH/USD"]

/-- A client whose socket was dialled and not yet closed. -/
def connectedClient : Client ℚ :=
  { freshClient with WsConn := some Conn.fresh }

/-- The client of `TestGenerateSignature`: the secret is the base64 encoding of
`test-secret`. -/
def signingClient : Client ℚ := NewClient "test-key" "dGVzdC1zZWNyZXQ="

/-- A client whose secret `test-secret` is not base64: `-` is outside the
alphabet. -/
def plainSecretClient : Client ℚ := NewClient "test-key" "test-secret"

/-- A client whose secret `test` is the base64 encoding of three bytes. -/
def shortSecretClient : Client ℚ := NewClient "test-key" "test"

/-! ## The ledger invariant of the specification -/

/-- The ledger holds only non-negative prices: every value in `Prices` and
every value in `PrevPrices` is at least 0. -/
def LedgerNonNeg {F : Type} [Zero F] [LE F] (c : Client F) : Prop :=
  (∀ e ∈ c.Prices, 0 ≤ e.2) ∧ (∀ e ∈ c.PrevPrices, 0 ≤ e.2)

/-! ## Bytes, base64 and digests (Go standard library) -/

/-- The UTF-8 bytes of one character. -/
def utf8Bytes (ch : Char) : List Nat :=
  let v := ch.toNat
  if v < 128 then [v]
  else if v < 2048 then [192 + v / 64, 128 + v % 64]
  else if v < 65536 then [224 + v / 4096, 128 + v / 64 % 64, 128 + v % 64]
  else [240 + v / 262144, 128 + v / 4096 % 64, 128 + v / 64 % 64, 128 + v % 64]

/-- The UTF-8 bytes of a list of characters. -/
def bytesOfChars : List Char → List Nat
  | [] => []
  | ch :: rest => utf8Bytes ch ++ bytesOfChars rest

/-- The conversion `[]byte(s)`: the bytes of a string. -/
def bytesOf (s : String) : List Nat :=
  bytesOfChars s.data

/-- The alphabet of `base64.StdEncoding`. -/
def encodeStd : List Char :=
  "ABCDEFGHIJKLMNOPQRSTUVWXYZabcdefghijklmnopqrstuvwxyz0123456789+/".data

/-- The character of a 6-bit value in the standard alphabet. -/
def encodeSextet (v : Nat) : Char :=
  encodeStd.getD v 'A'

/-- The characters `EncodeToString` writes: four for every three bytes, the last
group padded with `=`. -/
def encodeChars : List Nat → List Char
  | a :: b :: c :: rest =>
    encodeSextet (a / 4) :: encodeSextet (a % 4 * 16 + b / 16) ::
      encodeSextet (b % 16 * 4 + c / 64) :: encodeSextet (c % 64) :: encodeChars rest
  | [a, b] =>
    [encodeSextet (a / 4), encodeSextet (a % 4 * 16 + b / 16), encodeSextet (b % 16 * 4), '=']
  | [a] => [encodeSextet (a / 4), encodeSextet (a % 4 * 16), '=', '=']
  | [] => []

/-- The function `base64.StdEncoding.EncodeToString`. -/
def EncodeToString (src : List Nat) : String :=
  String.mk (encodeChars src)

/-- The 6-bit value of a byte of the standard alphabet (the decode map). -/
def decodeSextet (b : Nat) : Option Nat :=
  if 65 ≤ b ∧ b ≤ 90 then some (b - 65)
  else if 97 ≤ b ∧ b ≤ 122 then some (b - 71)
  else if 48 ≤ b ∧ b ≤ 57 then some (b + 4)
  else if b = 43 then some 62
  else if b = 47 then some 63
  else none

/-- Drops the line feeds and carriage returns at the front of the input. -/
def skipNewlines : List Nat → List Nat
  | [] => []
  | b :: rest => if b = 10 ∨ b = 13 then skipNewlines rest else b :: rest

/-- The bytes of a quantum of 2, 3 or 4 sextets: 1, 2 or 3 bytes. -/
def quantumBytes (sextets : List Nat) : List Nat :=
  let val := sextets.getD 0 0 * 262144 + sextets.getD 1 0 * 4096 + sextets.getD 2 0 * 64 +
    sextets.getD 3 0
  [val / 65536 % 256, val / 256 % 256, val % 256].take (sextets.length - 1)

/-- The decoding loop of `base64.StdEncoding`: `quantum` holds the sextets of
the current group of four, `out` the bytes decoded so far. The result is the
bytes decoded before the loop stopped and whether it stopped on corrupt input.
Line feeds and carriage returns are skipped; padding is required; a corrupt
group contributes no bytes, except that a padded group followed by more input
is still decoded. -/
def decodeLoop : List Nat → List Nat → List Nat → List Nat × Bool
  | [], quantum, out => (out, decide (quantum ≠ []))
  | b :: rest, quantum, out =>
    match decodeSextet b with
    | some v =>
      if quantum.length = 3 then decodeLoop rest [] (out ++ quantumBytes (quantum ++ [v]))
      else decodeLoop rest (quantum ++ [v]) out
    | none =>
      if b = 10 ∨ b = 13 then decodeLoop rest quantum out
      else if b ≠ 61 then (out, true)
      else if quantum.length < 2 then (out, true)
      else if quantum.length = 2 then
        match skipNewlines rest with
        | [] => (out, true)
        | b2 :: rest2 =>
          if b2 ≠ 61 then (out, true)
          else (out ++ quantumBytes quantum, decide (skipNewlines rest2 ≠ []))
      else (out ++ quantumBytes quantum, decide (skipNewlines rest ≠ []))

/-- The function `base64.StdEncoding.DecodeString`: the bytes decoded, and
whether the returned error is not nil (a `CorruptInputError`, whose offset is
left out). -/
def DecodeString (s : String) : List Nat × Bool :=
  decodeLoop (bytesOf s) [] []

/-- The `n` bytes of a number, most significant first. -/
def toBytesBE : Nat → Nat → List Nat
  | 0, _ => []
  | n + 1, x => x / 256 ^ n % 256 :: toBytesBE n x

/-- The number whose bytes, most significant first, are the first `n` of the
list. -/
def ofBytesBE : Nat → List Nat → Nat → Nat
  | 0, _, acc => acc
  | _ + 1, [], acc => acc
  | n + 1, b :: rest, acc => ofBytesBE n rest (acc * 256 + b)

/-- The words of a block, `size` bytes each. -/
def wordsOf (size : Nat) : Nat → List Nat → List Nat
  | 0, _ => []
  | n + 1, bytes => ofBytesBE size bytes 0 :: wordsOf size n (bytes.drop size)

/-- The parameters that tell SHA-256 and SHA-512 apart (FIPS 180-4): the word
size in bits, the round constants, the initial hash value and the rotation and
shift amounts of the four sigma functions. -/
structure Sha2 where
  bits : Nat
  K : List Nat
  H0 : List Nat
  bigSigma0 : Nat × Nat × Nat
  bigSigma1 : Nat × Nat × Nat
  smallSigma0 : Nat × Nat × Nat
  smallSigma1 : Nat × Nat × Nat

/-- Rotation to the right of a word of `bits` bits. -/
def rotr (bits n x : Nat) : Nat :=
  (x >>> n ||| x <<< (bits - n)) % 2 ^ bits

/-- A big sigma function: three rotations. -/
def bigSigma (bits : Nat) (r : Nat × Nat × Nat) (x : Nat) : Nat :=
  rotr bits r.1 x ^^^ rotr bits r.2.1 x ^^^ rotr bits r.2.2 x

/-- A small sigma function: two rotations and a shift. -/
def smallSigma (bits : Nat) (r : Nat × Nat × Nat) (x : Nat) : Nat :=
  rotr bits r.1 x ^^^ rotr bits r.2.1 x ^^^ x >>> r.2.2

/-- The message schedule: `window` holds the last sixteen words, oldest first;
the result is the next `n` words of the schedule, starting with the oldest of
the window. -/
def schedule (p : Sha2) : Nat → List Nat → List Nat
  | 0, _ => []
  | n + 1, window =>
    let next := (smallSigma p.bits p.smallSigma1 (window.getD 14 0) + window.getD 9 0 +
      smallSigma p.bits p.smallSigma0 (window.getD 1 0) + window.getD 0 0) % 2 ^ p.bits
    window.getD 0 0 :: schedule p n (window.drop 1 ++ [next])

/-- The eight working variables. -/
structure Sha2State where
  a : Nat
  b : Nat
  c : Nat
  d : Nat
  e : Nat
  f : Nat
  g : Nat
  h : Nat
deriving DecidableEq, Repr

/-- One round of the compression function, with round constant `k` and
schedule word `w`. -/
def sha2Round (p : Sha2) (s : Sha2State) (kw : Nat × Nat) : Sha2State :=
  let ch := (s.e &&& s.f) ^^^ ((2 ^ p.bits - 1 - s.e) &&& s.g)
  let maj := (s.a &&& s.b) ^^^ (s.a &&& s.c) ^^^ (s.b &&& s.c)
  let t1 := s.h + bigSigma p.bits p.bigSigma1 s.e + ch + kw.1 + kw.2
  let t2 := bigSigma p.bits p.bigSigma0 s.a + maj
  { a := (t1 + t2) % 2 ^ p.bits, b := s.a, c := s.b, d := s.c,
    e := (s.d + t1) % 2 ^ p.bits, f := s.e, g := s.f, h := s.g }

/-- The compression of one block into the hash value. -/
def sha2Block (p : Sha2) (hash : Sha2State) (block : List Nat) : Sha2State :=
  let w := schedule p p.K.length (wordsOf (p.bits / 8) 16 block)
  let s := (p.K.zip w).foldl (sha2Round p) hash
  { a := (hash.a + s.a) % 2 ^ p.bits, b := (hash.b + s.b) % 2 ^ p.bits,
    c := (hash.c + s.c) % 2 ^ p.bits, d := (hash.d + s.d) % 2 ^ p.bits,
    e := (hash.e + s.e) % 2 ^ p.bits, f := (hash.f + s.f) % 2 ^ p.bits,
    g := (hash.g + s.g) % 2 ^ p.bits, h := (hash.h + s.h) % 2 ^ p.bits }

/-- The compression of `n` blocks of `size` bytes, one after the other. -/
def sha2Blocks (p : Sha2) (size : Nat) : Nat → Sha2State → List Nat → Sha2State
  | 0, hash, _ => hash
  | n + 1, hash, bytes => sha2Blocks p size n (sha2Block p hash (bytes.take size)) (bytes.drop size)

/-- The padded message: the byte 128, zero bytes up to a whole number of blocks,
and the length in bits in the last `bits / 4` bytes. -/
def sha2Pad (p : Sha2) (msg : List Nat) : List Nat :=
  let size := p.bits * 2
  let zeros := (size - (msg.length + 1 + p.bits / 4) % size) % size
  msg ++ 128 :: List.replicate zeros 0 ++ toBytesBE (p.bits / 4) (msg.length * 8)

/-- The digest: the eight words of the final hash value, most significant byte
first. -/
def sha2Sum (p : Sha2) (msg : List Nat) : List Nat :=
  let size := p.bits * 2
  let padded := sha2Pad p msg
  let s := sha2Blocks p size (padded.length / size)
    { a := p.H0.getD 0 0, b := p.H0.getD 1 0, c := p.H0.getD 2 0, d := p.H0.getD 3 0,
      e := p.H0.getD 4 0, f := p.H0.getD 5 0, g := p.H0.getD 6 0, h := p.H0.getD 7 0 } padded
  toBytesBE (p.bits / 8) s.a ++ toBytesBE (p.bits / 8) s.b ++ toBytesBE (p.bits / 8) s.c ++
    toBytesBE (p.bits / 8) s.d ++ toBytesBE (p.bits / 8) s.e ++ toBytesBE (p.bits / 8) s.f ++
    toBytesBE (p.bits / 8) s.g ++ toBytesBE (p.bits / 8) s.h

/-- The parameters of SHA-256. -/
def sha256Params : Sha2 where
  bits := 32
  K :=
    [0x428a2f98, 0x71374491, 0xb5c0fbcf, 0xe9b5dba5, 0x3956c25b, 0x59f111f1,
    0x923f82a4, 0xab1c5ed5, 0xd807aa98, 0x12835b01, 0x243185be, 0x550c7dc3,
    0x72be5d74, 0x80deb1fe, 0x9bdc06a7, 0xc19bf174, 0xe49b69c1, 0xefbe4786,
    0x0fc19dc6, 0x240ca1cc, 0x2de92c6f, 0x4a7484aa, 0x5cb0a9dc, 0x76f988da,
    0x983e5152, 0xa831c66d, 0xb00327c8, 0xbf597fc7, 0xc6e00bf3, 0xd5a79147,
    0x06ca6351, 0x14292967, 0x27b70a85, 0x2e1b2138, 0x4d2c6dfc, 0x53380d13,
    0x650a7354, 0x766a0abb, 0x81c2c92e, 0x92722c85, 0xa2bfe8a1, 0xa81a664b,
    0xc24b8b70, 0xc76c51a3, 0xd192e819, 0xd6990624, 0xf40e3585, 0x106aa070,
    0x19a4c116, 0x1e376c08, 0x2748774c, 0x34b0bcb5, 0x391c0cb3, 0x4ed8aa4a,
    0x5b9cca4f, 0x682e6ff3, 0x748f82ee, 0x78a5636f, 0x84c87814, 0x8cc70208,
    0x90befffa, 0xa4506ceb, 0xbef9a3f7, 0xc67178f2]
  H0 :=
    [0x6a09e667, 0xbb67ae85, 0x3c6ef372, 0xa54ff53a,
    0x510e527f, 0x9b05688c, 0x1f83d9ab, 0x5be0cd19]
  bigSigma0 := (2, 13, 22)
  bigSigma1 := (6, 11, 25)
  smallSigma0 := (7, 18, 3)
  smallSigma1 := (17, 19, 10)

/-- The parameters of SHA-512. -/
def sha512Params : Sha2 where
  bits := 64
  K :=
    [0x428a2f98d728ae22, 0x7137449123ef65cd, 0xb5c0fbcfec4d3b2f, 0xe9b5dba58189dbbc,
    0x3956c25bf348b538, 0x59f111f1b605d019, 0x923f82a4af194f9b, 0xab1c5ed5da6d8118,
    0xd807aa98a3030242, 0x12835b0145706fbe, 0x243185be4ee4b28c, 0x550c7dc3d5ffb4e2,
    0x72be5d74f27b896f, 0x80deb1fe3b1696b1, 0x9bdc06a725c71235, 0xc19bf174cf692694,
    0xe49b69c19ef14ad2, 0xefbe4786384f25e3, 0x0fc19dc68b8cd5b5, 0x240ca1cc77ac9c65,
    0x2de92c6f592b0275, 0x4a7484aa6ea6e483, 0x5cb0a9dcbd41fbd4, 0x76f988da831153b5,
    0x983e5152ee66dfab, 0xa831c66d2db43210, 0xb00327c898fb213f, 0xbf597fc7beef0ee4,
    0xc6e00bf33da88fc2, 0xd5a79147930aa725, 0x06ca6351e003826f, 0x142929670a0e6e70,
    0x27b70a8546d22ffc, 0x2e1b21385c26c926, 0x4d2c6dfc5ac42aed, 0x53380d139d95b3df,
    0x650a73548baf63de, 0x766a0abb3c77b2a8, 0x81c2c92e47edaee6, 0x92722c851482353b,
    0xa2bfe8a14cf10364, 0xa81a664bbc423001, 0xc24b8b70d0f89791, 0xc76c51a30654be30,
    0xd192e819d6ef5218, 0xd69906245565a910, 0xf40e35855771202a, 0x106aa07032bbd1b8,
    0x19a4c116b8d2d0c8, 0x1e376c085141ab53, 0x2748774cdf8eeb99, 0x34b0bcb5e19b48a8,
    0x391c0cb3c5c95a63, 0x4ed8aa4ae3418acb, 0x5b9cca4f7763e373, 0x682e6ff3d6b2b8a3,
    0x748f82ee5defb2fc, 0x78a5636f43172f60, 0x84c87814a1f0ab72, 0x8cc702081a6439ec,
    0x90befffa23631e28, 0xa4506cebde82bde9, 0xbef9a3f7b2c67915, 0xc67178f2e372532b,
    0xca273eceea26619c, 0xd186b8c721c0c207, 0xeada7dd6cde0eb1e, 0xf57d4f7fee6ed178,
    0x06f067aa72176fba, 0x0a637dc5a2c898a6, 0x113f9804bef90dae, 0x1b710b35131c471b,
    0x28db77f523047d84, 0x32caab7b40c72493, 0x3c9ebe0a15c9bebc, 0x431d67c49c100d4c,
    0x4cc5d4becb3e42b6, 0x597f299cfc657e2a, 0x5fcb6fab3ad6faec, 0x6c44198c4a475817]
  H0 :=
    [0x6a09e667f3bcc908, 0xbb67ae8584caa73b, 0x3c6ef372fe94f82b, 0xa54ff53a5f1d36f1,
    0x510e527fade682d1, 0x9b05688c2b3e6c1f, 0x1f83d9abfb41bd6b, 0x5be0cd19137e2179]
  bigSigma0 := (28, 34, 39)
  bigSigma1 := (14, 18, 41)
  smallSigma0 := (1, 8, 7)
  smallSigma1 := (19, 61, 6)

/-- The function `sha256.Sum256`. -/
def Sum256 (data : List Nat) : List Nat :=
  sha2Sum sha256Params data

/-- The function `sha512.Sum512`, the hash behind `sha512.New`. -/
def Sum512 (data : List Nat) : List Nat :=
  sha2Sum sha512Params data

/-- The MAC of `hmac.New(sha512.New, key)` after `Write(msg)` and `Sum(nil)`
(RFC 2104 with a block of 128 bytes). -/
def hmacSHA512 (key msg : List Nat) : List Nat :=
  let key1 := if key.length > 128 then Sum512 key else key
  let key2 := key1 ++ List.replicate (128 - key1.length) 0
  let ipad := key2.map (fun b => b ^^^ 54)
  let opad := key2.map (fun b => b ^^^ 92)
  Sum512 (opad ++ Sum512 (ipad ++ msg))

/-- The method `GenerateSignature`. The error of `DecodeString` is dropped and
the bytes it returns are the key. -/
def GenerateSignature {F : Type} (c : Client F) (urlPath postData nonce : String) : String :=
  let sha256Sum := Sum256 (bytesOf (nonce ++ postData))
  let decodedSecret := (DecodeString c.ApiSecret).1
  EncodeToString (hmacSHA512 decodedSecret (bytesOf urlPath ++ sha256Sum))

/-! ## The display (`internal/ui/display.go`) -/

/-- The constant `colorReset`. -/
def colorReset : String := "\x1b[0m"

/-- The constant `colorRed`. -/
def colorRed : String := "\x1b[31m"

/-- The constant `colorGreen`. -/
def colorGreen : String := "\x1b[32m"

/-- The constant `colorCyan`. -/
def colorCyan : String := "\x1b[36m"

/-- The constant `colorGray`. -/
def colorGray : String := "\x1b[37m"

/-- The constant `bgBlack`. -/
def bgBlack : String := "\x1b[40m"

/-- The constant `minWidth`. -/
def minWidth : Int := 60

/-- The constant `maxWidth`. -/
def maxWidth : Int := 100

/-- The constant `assetWidth`. -/
def assetWidth : Nat := 6

/-- The constant `balanceWidth`. -/
def balanceWidth : Nat := 10

/-- The constant `priceWidth`. -/
def priceWidth : Nat := 12

/-- The constant `valueWidth`. -/
def valueWidth : Nat := 12

/-- The record `Display`. The writer is left out: every render function returns
the text it writes. A display is built by `NewDisplayWithWriter`, so its width
lies between 60 and 100 and no repeat count below is negative. -/
structure Display where
  width : Int
deriving DecidableEq, Repr

/-- The function `calculateWidth`. -/
def calculateWidth (requestedWidth : Int) : Int :=
  if requestedWidth < minWidth then minWidth
  else if requestedWidth > maxWidth then maxWidth
  else requestedWidth

/-- The constructor `NewDisplayWithWriter(w, width)`. -/
def NewDisplayWithWriter (width : Int) : Display :=
  { width := calculateWidth width }

/-- The function `strings.Repeat(s, count)` for a count that is not negative. -/
def Repeat (s : String) : Nat → String
  | 0 => ""
  | count + 1 => s ++ Repeat s count

/-- The verb `%-*s`: the string, then spaces up to `width` characters. -/
def padRight (width : Nat) (s : String) : String :=
  s ++ Repeat " " (width - s.length)

/-- The method `GetPriceColor`. -/
def GetPriceColor {F : Type} [LT F] [DecidableRel (LT.lt : F → F → Prop)]
    (current previous : F) : String :=
  if current > previous then colorGreen
  else if current < previous then colorRed
  else colorReset

/-- The method `FormatPrice`; `fmtFloat n x` is what `fmt` prints for `x` under
`%.nf`. -/
def FormatPrice {F : Type} (fmtFloat : Nat → F → String) (price : F) (color : String) :
    String :=
  color ++ "$" ++ fmtFloat 2 price ++ colorReset

/-- The method `FormatBalance`. -/
def FormatBalance {F : Type} [LE F] [DecidableRel (LE.le : F → F → Prop)] [OfNat F 1000]
    (fmtFloat : Nat → F → String) (balance : F) : String :=
  if balance ≥ 1000 then fmtFloat 2 balance else fmtFloat 8 balance

/-- The loop of `separateAssets`: the records other than `USD` in order, and the
last record named `USD`. -/
def splitAssets {F : Type} (assets : List (AssetValue F)) :
    List (AssetValue F) × Option (AssetValue F) :=
  assets.foldl
    (fun acc asset =>
      if asset.Asset = "USD" then (acc.1, some asset) else (acc.1 ++ [asset], acc.2))
    ([], none)

/-- The method `separateAssets`; `sortSlice less xs` is what `sort.Slice` leaves
in the slice `xs` under the comparison `less`. -/
def separateAssets {F : Type} [LT F] [DecidableRel (LT.lt : F → F → Prop)]
    (sortSlice : (AssetValue F → AssetValue F → Bool) → List (AssetValue F) →
      List (AssetValue F))
    (assets : List (AssetValue F)) : List (AssetValue F) × Option (AssetValue F) :=
  (sortSlice (fun a b => decide (a.USDValue > b.USDValue)) (splitAssets assets).1,
    (splitAssets assets).2)

/-- The method `calculateTotal`. -/
def calculateTotal {F : Type} [Zero F] [Add F] (assets : List (AssetValue F)) : F :=
  assets.foldl (fun total asset => total + asset.USDValue) 0

/-- The method `renderHeader`: five lines. The title is plain ASCII, so its
length in bytes is its number of characters; the division truncates as Go's
does. -/
def renderHeader (d : Display) : String :=
  let title := "KRAKEN PORTFOLIO"
  let titlePadding : Int := Int.tdiv (d.width - title.length) 2
  bgBlack ++ colorCyan ++ "╔" ++ Repeat "═" d.width.toNat ++ "╗" ++ colorReset ++ "\n" ++
  (colorCyan ++ "║" ++ Repeat " " titlePadding.toNat ++ title ++
    Repeat " " (d.width - title.length - titlePadding).toNat ++ "║" ++ colorReset ++ "\n") ++
  (colorCyan ++ "╠" ++ Repeat "═" d.width.toNat ++ "╣" ++ colorReset ++ "\n") ++
  (colorCyan ++ "║ " ++ padRight assetWidth "ASSET" ++ " " ++ padRight balanceWidth "BALANCE" ++
    " " ++ padRight priceWidth "PRICE" ++ " " ++ padRight valueWidth "VALUE (USD)" ++ " ║" ++
    colorReset ++ "\n") ++
  (colorCyan ++ "╠" ++ Repeat "═" d.width.toNat ++ "╣" ++ colorReset ++ "\n")

/-- The method `renderCryptoAssets`: one line for each record. -/
def renderCryptoAssets {F : Type} [LT F] [DecidableRel (LT.lt : F → F → Prop)] [LE F]
    [DecidableRel (LE.le : F → F → Prop)] [OfNat F 1000]
    (fmtFloat : Nat → F → String) (assets : List (AssetValue F)) : String :=
  assets.foldl
    (fun out asset =>
      let priceColor := GetPriceColor asset.Price asset.PrevPrice
      let priceStr := FormatPrice fmtFloat asset.Price priceColor
      let balanceStr := FormatBalance fmtFloat asset.Balance
      out ++ (colorCyan ++ "║ " ++ padRight assetWidth asset.Asset ++ " " ++
        padRight balanceWidth balanceStr ++ " " ++ padRight priceWidth priceStr ++ " " ++
        padRight valueWidth (fmtFloat 2 asset.USDValue) ++ " ║" ++ colorReset ++ "\n"))
    ""

/-- The method `renderDivider`. -/
def renderDivider (d : Display) : String :=
  colorCyan ++ "╟" ++ Repeat "─" d.width.toNat ++ "╢" ++ colorReset ++ "\n"

/-- The method `renderUSD`. -/
def renderUSD {F : Type} (fmtFloat : Nat → F → String) (usd : AssetValue F) : String :=
  colorCyan ++ "║ " ++ padRight assetWidth usd.Asset ++ " " ++
    padRight balanceWidth (fmtFloat 2 usd.Balance) ++ " " ++ padRight priceWidth "-" ++ " " ++
    padRight valueWidth (fmtFloat 2 usd.USDValue) ++ " ║" ++ colorReset ++ "\n"

/-- The method `renderFooter`: four lines. -/
def renderFooter {F : Type} (fmtFloat : Nat → F → String) (d : Display) (totalUSD : F) :
    String :=
  colorCyan ++ "╠" ++ Repeat "═" d.width.toNat ++ "╣" ++ colorReset ++ "\n" ++
  (colorCyan ++ "║ TOTAL VALUE: $" ++ padRight (d.width - 15).toNat (fmtFloat 2 totalUSD) ++
    " ║" ++ colorReset ++ "\n") ++
  (colorCyan ++ "╚" ++ Repeat "═" d.width.toNat ++ "╝" ++ colorReset ++ "\n") ++
  (colorGray ++ "Press Ctrl+C to exit" ++ colorReset ++ "\n")

/-- The method `RenderPortfolio`: the text written to the writer. -/
def RenderPortfolio {F : Type} [Zero F] [Add F] [LT F] [DecidableRel (LT.lt : F → F → Prop)]
    [LE F] [DecidableRel (LE.le : F → F → Prop)] [OfNat F 1000]
    (fmtFloat : Nat → F → String)
    (sortSlice : (AssetValue F → AssetValue F → Bool) → List (AssetValue F) →
      List (AssetValue F))
    (d : Display) (assets : List (AssetValue F)) : String :=
  let separated := separateAssets sortSlice assets
  "\x1b[H\x1b[2J" ++ renderHeader d ++ renderCryptoAssets fmtFloat separated.1 ++
    (match separated.2 with
     | some usdAsset => renderDivider d ++ renderUSD fmtFloat usdAsset
     | none => "") ++
    renderFooter fmtFloat d (calculateTotal assets)

/-! ## Lines without colour codes -/

/-- The lines of a text: the pieces between line feeds. -/
def splitLines : List Char → List (List Char)
  | [] => [[]]
  | ch :: rest =>
    if ch = '\n' then [] :: splitLines rest
    else
      match splitLines rest with
      | line :: more => (ch :: line) :: more
      | [] => [[ch]]

/-- A line without its colour codes: every escape character is dropped together
with what follows it up to and including the first letter. The flag says
whether the scan is inside a code. -/
def stripANSI : Bool → List Char → List Char
  | _, [] => []
  | true, ch :: rest => if ch.isAlpha then stripANSI false rest else stripANSI true rest
  | false, ch :: rest => if ch = '\x1b' then stripANSI true rest else ch :: stripANSI false rest

/-- The number of characters of a line once its colour codes are removed. -/
def visibleLength (line : List Char) : Nat :=
  (stripANSI false line).length

/-! ## Lemmas on maps -/

theorem GoMap.get?_set_self {α : Type} (m : GoMap α) (k : String) (v : α) :
    GoMap.get? (GoMap.set m k v) k = some v := by
  induction m with
  | nil => simp [GoMap.set, GoMap.get?]
  | cons e rest ih =>
    obtain ⟨k', v'⟩ := e
    by_cases h : k' = k
    · simp [GoMap.set, GoMap.get?, h]
    · simp [GoMap.set, GoMap.get?, h, ih]

theorem GoMap.get?_set_other {α : Type} (m : GoMap α) (k k' : String) (v : α) (h : k' ≠ k) :
    GoMap.get? (GoMap.set m k v) k' = GoMap.get? m k' := by
  induction m with
  | nil => simp [GoMap.set, GoMap.get?, h.symm]
  | cons e rest ih =>
    obtain ⟨k0, v0⟩ := e
    by_cases h0 : k0 = k
    · subst h0
      simp [GoMap.set, GoMap.get?, h.symm]
    · by_cases h1 : k0 = k'
      · subst h1
        simp [GoMap.set, GoMap.get?, h0]
      · simp [GoMap.set, GoMap.get?, h0, h1, ih]

theorem GoMap.index_set_self {α : Type} [Zero α] (m : GoMap α) (k : String) (v : α) :
    GoMap.index (GoMap.set m k v) k = v := by
  simp [GoMap.index, GoMap.get?_set_self]

theorem GoMap.get?_eq_none_of_not_mem {α : Type} (m : GoMap α) (k : String)
    (h : k ∉ GoMap.keys m) : GoMap.get? m k = none := by
  induction m with
  | nil => rfl
  | cons e rest ih =>
    obtain ⟨k0, v0⟩ := e
    simp only [GoMap.keys, List.map_cons, List.mem_cons, not_or] at h
    have h0 : ¬ k0 = k := fun hk => h.1 hk.symm
    simp only [GoMap.get?, h0, if_false]
    exact ih h.2

theorem GoMap.mem_of_get? {α : Type} (m : GoMap α) (k : String) (v : α)
    (h : GoMap.get? m k = some v) : (k, v) ∈ m := by
  induction m with
  | nil => simp [GoMap.get?] at h
  | cons e rest ih =>
    obtain ⟨k0, v0⟩ := e
    by_cases h0 : k0 = k
    · simp only [GoMap.get?, h0, if_true, Option.some.injEq] at h
      simp [h0, h]
    · simp only [GoMap.get?, h0, if_false] at h
      exact List.mem_cons_of_mem _ (ih h)

theorem GoMap.keys_set {α : Type} (m : GoMap α) (k : String) (v : α) :
    GoMap.keys (GoMap.set m k v) = if k ∈ GoMap.keys m then GoMap.keys m else GoMap.keys m ++ [k] := by
  induction m with
  | nil => simp [GoMap.set, GoMap.keys]
  | cons e rest ih =>
    obtain ⟨k0, v0⟩ := e
    by_cases h0 : k0 = k
    · subst h0
      simp [GoMap.set, GoMap.keys]
    · have h1 : ¬ k = k0 := fun hk => h0 hk.symm
      simp only [GoMap.keys] at ih
      by_cases hm : k ∈ List.map Prod.fst rest
      · simp [GoMap.set, GoMap.keys, h0, h1, hm, ih]
      · simp [GoMap.set, GoMap.keys, h0, h1, hm, ih]

theorem GoMap.WF_set {α : Type} (m : GoMap α) (k : String) (v : α) (h : GoMap.WF m) :
    GoMap.WF (GoMap.set m k v) := by
  unfold GoMap.WF at *
  rw [GoMap.keys_set]
  by_cases hm : k ∈ GoMap.keys m
  · simpa [hm] using h
  · simp only [hm, if_false]
    rw [List.nodup_append]
    refine ⟨h, List.nodup_singleton k, ?_⟩
    intro a ha hb
    simp only [List.mem_singleton] at hb
    subst hb
    exact hm ha

/-! ## Lemmas on `GetBalances` -/

theorem addBalance_WF {F : Type} [Zero F] [LT F] [DecidableRel (LT.lt : F → F → Prop)]
    (sscanf : String → Option F) (acc : GoMap F) (e : String × String) (h : GoMap.WF acc) :
    GoMap.WF (addBalance sscanf acc e) := by
  unfold addBalance
  cases ParseFloat sscanf e.2 with
  | none => exact h
  | some bal =>
    by_cases hb : 0 < bal
    · simpa [hb] using GoMap.WF_set acc e.1 bal h
    · simpa [hb] using h

theorem foldl_addBalance_WF {F : Type} [Zero F] [LT F] [DecidableRel (LT.lt : F → F → Prop)]
    (sscanf : String → Option F) (m : GoMap String) (acc : GoMap F) (h : GoMap.WF acc) :
    GoMap.WF (m.foldl (addBalance sscanf) acc) := by
  induction m generalizing acc with
  | nil => exact h
  | cons e rest ih => exact ih _ (addBalance_WF sscanf acc e h)

theorem get?_addBalance_other {F : Type} [Zero F] [LT F] [DecidableRel (LT.lt : F → F → Prop)]
    (sscanf : String → Option F) (acc : GoMap F) (e : String × String) (k : String)
    (h : e.1 ≠ k) : GoMap.get? (addBalance sscanf acc e) k = GoMap.get? acc k := by
  unfold addBalance
  cases ParseFloat sscanf e.2 with
  | none => rfl
  | some bal =>
    by_cases hb : 0 < bal
    · simpa [hb] using GoMap.get?_set_other acc e.1 k bal (fun hk => h hk.symm)
    · simp [hb]

theorem get?_foldl_addBalance {F : Type} [Zero F] [LT F] [DecidableRel (LT.lt : F → F → Prop)]
    (sscanf : String → Option F) (m : GoMap String) (acc : GoMap F) (k : String)
    (h : GoMap.WF m) :
    GoMap.get? (m.foldl (addBalance sscanf) acc) k =
      match GoMap.get? m k with
      | none => GoMap.get? acc k
      | some balStr =>
        match ParseFloat sscanf balStr with
        | some bal => if 0 < bal then some bal else GoMap.get? acc k
        | none => GoMap.get? acc k := by
  induction m generalizing acc with
  | nil => rfl
  | cons e rest ih =>
    obtain ⟨k0, s0⟩ := e
    have hnd : k0 ∉ GoMap.keys rest ∧ GoMap.WF rest := by
      simpa [GoMap.WF, GoMap.keys] using h
    rw [List.foldl_cons, ih _ hnd.2]
    by_cases h0 : k0 = k
    · subst h0
      rw [GoMap.get?_eq_none_of_not_mem rest k0 hnd.1]
      simp only [GoMap.get?, if_true]
      unfold addBalance
      cases ParseFloat sscanf s0 with
      | none => rfl
      | some bal =>
        by_cases hb : 0 < bal
        · simp [hb, GoMap.get?_set_self]
        · simp [hb]
    · simp only [GoMap.get?, h0, if_false]
      rw [get?_addBalance_other sscanf acc (k0, s0) k h0]

/-! ## Lemmas on `GetAssetValues` -/

theorem addAssetValue_eq {F : Type} [Zero F] [One F] [Mul F] (c : Client F)
    (assets : List (AssetValue F)) (e : String × F) :
    addAssetValue c assets e = assets ++ (valuate c e).toList := by
  unfold addAssetValue valuate
  by_cases h : e.1 = "ZUSD"
  · simp [h]
  · simp only [h, if_false]
    cases GoMap.get? AssetMapping e.1 <;> simp

theorem foldl_addAssetValue {F : Type} [Zero F] [One F] [Mul F] (c : Client F)
    (m : GoMap F) (acc : List (AssetValue F)) :
    m.foldl (addAssetValue c) acc = acc ++ m.filterMap (valuate c) := by
  induction m generalizing acc with
  | nil => simp
  | cons e rest ih =>
    rw [List.foldl_cons, ih, addAssetValue_eq]
    cases hv : valuate c e <;> simp [List.filterMap_cons, hv]

theorem GetAssetValues_eq {F : Type} [Zero F] [One F] [Mul F] (c : Client F) :
    GetAssetValues c = c.Balances.filterMap (valuate c) := by
  simp [GetAssetValues, foldl_addAssetValue]

theorem valuate_isSome {F : Type} [Zero F] [One F] [Mul F] (c : Client F) (e : String × F) :
    (valuate c e).isSome = hasRecord e := by
  unfold valuate hasRecord
  by_cases h : e.1 = "ZUSD"
  · simp [h]
  · simp only [h, if_false, decide_False, Bool.false_or]
    cases GoMap.get? AssetMapping e.1 <;> rfl

theorem forall₂_filter_filterMap {α β : Type} (f : α → Option β) (p : α → Bool)
    (hp : ∀ a, (f a).isSome = p a) (l : List α) :
    List.Forall₂ (fun a b => f a = some b) (l.filter p) (l.filterMap f) := by
  induction l with
  | nil => exact List.Forall₂.nil
  | cons a rest ih =>
    cases hf : f a with
    | none =>
      have hpa : p a = false := by rw [← hp a, hf]; rfl
      simpa [List.filter_cons, List.filterMap_cons, hf, hpa] using ih
    | some b =>
      have hpa : p a = true := by rw [← hp a, hf]; rfl
      simp only [List.filter_cons, List.filterMap_cons, hf, hpa, if_true]
      exact List.Forall₂.cons hf ih

/-! ## Lemmas on the message loop -/

theorem processFrame_of_tickerOf {F : Type} [Zero F] [One F] [Mul F]
    (sscanf : String → Option F) (c : Client F) (message : JSON) (P : String) (p : F)
    (h : tickerOf sscanf message = some (P, p)) :
    processFrame sscanf c message =
      .ok (UpdatePrice c P p, [GetAssetValues (UpdatePrice c P p)]) := by
  unfold tickerOf at h
  split at h
  · rename_i e0 tickerData e2 pairInfo rest
    split at h
    · rename_i price rest2 hc
      split at h
      · rename_i priceVal hp
        simp only [Option.some.injEq, Prod.mk.injEq] at h
        obtain ⟨h1, h2⟩ := h
        subst h1 h2
        simp [processFrame, unmarshalSlice, hc, hp]
      · exact absurd h (by simp)
    · exact absurd h (by simp)
  · exact absurd h (by simp)

theorem processFrame_of_shortTicker {F : Type} [Zero F] [One F] [Mul F]
    (sscanf : String → Option F) (c : Client F) (message : JSON)
    (h : shortTicker message = true) :
    ∃ n, n < 4 ∧ processFrame sscanf c message = .error (.indexOutOfRange 3 n) := by
  unfold shortTicker at h
  split at h
  · rename_i e0 tickerData
    split at h
    · rename_i price rest hc
      exact ⟨2, by decide, by simp [processFrame, unmarshalSlice, hc]⟩
    · exact absurd h (by simp)
  · rename_i e0 tickerData e2
    split at h
    · rename_i price rest hc
      exact ⟨3, by decide, by simp [processFrame, unmarshalSlice, hc]⟩
    · exact absurd h (by simp)
  · exact absurd h (by simp)

theorem processFrame_of_not_ticker {F : Type} [Zero F] [One F] [Mul F]
    (sscanf : String → Option F) (c : Client F) (message : JSON)
    (hT : tickerOf sscanf message = none) (hS : shortTicker message = false) :
    processFrame sscanf c message = .ok (c, []) := by
  cases message with
  | arr data =>
    match data with
    | [] => simp [processFrame, unmarshalSlice]
    | [_] => simp [processFrame, unmarshalSlice]
    | e0 :: e1 :: rest =>
      cases e1 with
      | obj td =>
        cases hc : member td "c" with
        | none => simp [processFrame, unmarshalSlice, hc]
        | some v =>
          cases v with
          | arr cd =>
            match cd with
            | [] => simp [processFrame, unmarshalSlice, hc]
            | x :: xs =>
              cases x with
              | str s =>
                match rest with
                | [] => simp [shortTicker, hc] at hS
                | [e2] => simp [shortTicker, hc] at hS
                | e2 :: e3 :: rest2 =>
                  cases e3 with
                  | str P =>
                    cases hp : ParseFloat sscanf s with
                    | none => simp [processFrame, unmarshalSlice, hc, hp]
                    | some v => simp [tickerOf, hc, hp] at hT
                  | _ => simp [processFrame, unmarshalSlice, hc]
              | _ => simp [processFrame, unmarshalSlice, hc]
          | _ => simp [processFrame, unmarshalSlice, hc]
      | _ => simp [processFrame, unmarshalSlice]
  | _ => simp [processFrame, unmarshalSlice]

theorem trim_XETH : TrimPrefix (TrimPrefix "XETH" "X") "Z" = "ETH" := by decide

theorem GetAssetValues_XETH {F : Type} [Zero F] [One F] [Mul F] (c : Client F) (b : F)
    (h : c.Balances = [("XETH", b)]) :
    GetAssetValues c =
      [{ Asset := "ETH", Balance := b, Price := GoMap.index c.Prices "ETH/USD",
         PrevPrice := GoMap.index c.PrevPrices "ETH/USD",
         USDValue := b * GoMap.index c.Prices "ETH/USD" }] := by
  have hne : ("XETH" : String) ≠ "ZUSD" := by decide
  have hm : GoMap.get? AssetMapping "XETH" = some "ETH/USD" := by decide
  simp [GetAssetValues, h, addAssetValue, hne, hm, trim_XETH]

/-! ## Lemmas on `Connect` -/

theorem mapping_fiat (asset pair : String) (h : GoMap.get? AssetMapping asset = some pair) :
    pair ≠ "USD" ↔ asset ≠ "ZUSD" := by
  simp only [AssetMapping, GoMap.get?] at h
  split_ifs at h with h1 h2 h3 h4
  · simp only [Option.some.injEq] at h
    subst h h1
    decide
  · simp only [Option.some.injEq] at h
    subst h h2
    decide
  · simp only [Option.some.injEq] at h
    subst h h3
    decide
  · simp only [Option.some.injEq] at h
    subst h h4
    decide

/-- What the loop body of `Connect` appends for one holding. -/
theorem addPair_eq {F : Type} (pairs : List String) (e : String × F) :
    addPair pairs e =
      pairs ++ (if hasFeed e then (GoMap.get? AssetMapping e.1).toList else []) := by
  unfold addPair hasFeed
  cases hm : GoMap.get? AssetMapping e.1 with
  | none => simp
  | some pair =>
    have hf := mapping_fiat e.1 pair hm
    by_cases hp : pair = "USD"
    · have hz : e.1 = "ZUSD" := by
        by_contra hne
        exact (hf.mpr hne) hp
      simp [hp, hz]
    · have hz : e.1 ≠ "ZUSD" := hf.mp hp
      simp [hp, hz]

theorem foldl_addPair {F : Type} (m : GoMap F) (acc : List String) :
    m.foldl addPair acc =
      acc ++ (m.filter hasFeed).filterMap (fun e => GoMap.get? AssetMapping e.1) := by
  induction m generalizing acc with
  | nil => simp
  | cons e rest ih =>
    rw [List.foldl_cons, ih, addPair_eq]
    by_cases hf : hasFeed e = true
    · have hs : (GoMap.get? AssetMapping e.1).isSome = true := by
        simp only [hasFeed, Bool.and_eq_true] at hf
        exact hf.2
      obtain ⟨pair, hpair⟩ := Option.isSome_iff_exists.mp hs
      simp [List.filter_cons, hf, hpair, List.filterMap_cons]
    · simp [List.filter_cons, hf]

theorem length_filterMap_hasFeed {F : Type} (m : GoMap F) :
    ((m.filter hasFeed).filterMap (fun e => GoMap.get? AssetMapping e.1)).length =
      (m.filter hasFeed).length := by
  induction m with
  | nil => rfl
  | cons e rest ih =>
    by_cases hf : hasFeed e = true
    · have hs : (GoMap.get? AssetMapping e.1).isSome = true := by
        simp only [hasFeed, Bool.and_eq_true] at hf
        exact hf.2
      obtain ⟨pair, hpair⟩ := Option.isSome_iff_exists.mp hs
      simp [List.filter_cons, hf, hpair, List.filterMap_cons, ih]
    · simpa [List.filter_cons, hf] using ih

theorem mem_subscriptionPairs {F : Type} (m : GoMap F) (pair : String) :
    pair ∈ subscriptionPairs m ↔
      ∃ asset balance, (asset, balance) ∈ m ∧ asset ≠ "ZUSD" ∧
        GoMap.get? AssetMapping asset = some pair := by
  simp only [subscriptionPairs, foldl_addPair, List.nil_append, List.mem_filterMap,
    List.mem_filter]
  constructor
  · rintro ⟨⟨asset, balance⟩, ⟨hmem, hf⟩, hp⟩
    simp only [hasFeed, Bool.and_eq_true, decide_eq_true_eq] at hf
    exact ⟨asset, balance, hmem, hf.1, hp⟩
  · rintro ⟨asset, balance, hmem, hz, hp⟩
    refine ⟨(asset, balance), ⟨hmem, ?_⟩, hp⟩
    simp [hasFeed, hz, hp]

/-! ## Claims -/

/-- C1: after `UpdatePrice(P, p)` the current price of `P` (through `GetPrice`,
that is `Prices[P]`) is `p`, and `PrevPrices[P]` is the value `Prices[P]` had
before the call: the stored one, or 0 when `P` had no entry. -/
theorem C1_UpdatePrice_tracks_previous {F : Type} [Zero F] (c : Client F) (P : String) (p : F) :
    GetPrice (UpdatePrice c P p) P = p ∧
    GoMap.index (UpdatePrice c P p).Prices P = p ∧
    GoMap.index (UpdatePrice c P p).PrevPrices P = GoMap.index c.Prices P ∧
    GoMap.index (UpdatePrice c P p).PrevPrices P =
      (match GoMap.get? c.Prices P with
       | some old => old
       | none => 0) := by
  refine ⟨?_, ?_, ?_, ?_⟩
  · simp [GetPrice, UpdatePrice, GoMap.index_set_self]
  · simp [UpdatePrice, GoMap.index_set_self]
  · simp [UpdatePrice, GoMap.index_set_self]
  · simp only [UpdatePrice, GoMap.index_set_self]
    unfold GoMap.index
    cases GoMap.get? c.Prices P <;> rfl

/-- C2: when the decoded response has an empty error list, `GetBalances`
returns no error and the new holdings map has, under each symbol, exactly the
parsed balance of the result entry with that symbol when the entry's string
parses to a value above zero, and nothing otherwise (entry missing, string not
parsed, or value not above zero); the new map holds each symbol once. -/
theorem C2_GetBalances_keeps_positive {F : Type} [Zero F] [LT F]
    [DecidableRel (LT.lt : F → F → Prop)] (sscanf : String → Option F) (c : Client F)
    (balanceResp : BalanceResponse) (hErr : balanceResp.Error = [])
    (hMap : GoMap.WF balanceResp.Result) :
    (GetBalances sscanf c (.ok balanceResp)).1 = none ∧
    GoMap.WF (GetBalances sscanf c (.ok balanceResp)).2.Balances ∧
    ∀ asset : String,
      GoMap.get? (GetBalances sscanf c (.ok balanceResp)).2.Balances asset =
        match GoMap.get? balanceResp.Result asset with
        | none => none
        | some balStr =>
          match ParseFloat sscanf balStr with
          | some bal => if 0 < bal then some bal else none
          | none => none := by
  have hlen : ¬ balanceResp.Error.length > 0 := by simp [hErr]
  refine ⟨?_, ?_, ?_⟩
  · simp [GetBalances, hErr]
  · simp only [GetBalances, hlen, if_false]
    exact foldl_addBalance_WF sscanf _ [] (by simp [GoMap.WF, GoMap.keys])
  · intro asset
    simp only [GetBalances, hlen, if_false]
    rw [get?_foldl_addBalance sscanf _ [] asset hMap]
    rfl

/-- C2 at the response `{"XETH":"2.5","SOL":"0","ZUSD":"1000"}`: the holdings
are exactly `{XETH: 2.5, ZUSD: 1000}`. -/
theorem C2_GetBalances_keeps_positive_witness :
    sampleResponse.Error = [] ∧ GoMap.WF sampleResponse.Result ∧
    (GetBalances scanDecimal freshClient (.ok sampleResponse)).2.Balances =
      [("XETH", 5 / 2), ("ZUSD", 1000)] ∧
    GoMap.get? (GetBalances scanDecimal freshClient (.ok sampleResponse)).2.Balances "SOL" = none :=
  ⟨rfl, by decide, by decide!,
    by
      rw [(C2_GetBalances_keeps_positive scanDecimal freshClient sampleResponse rfl
        (by decide)).2.2 "SOL"]
      decide!⟩

/-- C3: for a held symbol other than `ZUSD` whose `AssetMapping` entry is the
pair `P`, `GetAssetValues` returns a record with the held balance, the
ledger's current and previous price of `P` (0 for a pair with no entry), the
balance times the current price as USD value, and as name the symbol with a
leading `X` and then a leading `Z` removed. -/
theorem C3_GetAssetValues_mapped_record {F : Type} [Zero F] [One F] [Mul F] (c : Client F)
    (asset P : String) (balance : F)
    (hHeld : GoMap.get? c.Balances asset = some balance)
    (hFiat : asset ≠ "ZUSD")
    (hPair : GoMap.get? AssetMapping asset = some P) :
    ∃ r ∈ GetAssetValues c,
      r.Asset = TrimPrefix (TrimPrefix asset "X") "Z" ∧
      r.Balance = balance ∧
      r.Price = (match GoMap.get? c.Prices P with
                 | some price => price
                 | none => 0) ∧
      r.PrevPrice = (match GoMap.get? c.PrevPrices P with
                     | some price => price
                     | none => 0) ∧
      r.USDValue = r.Balance * r.Price := by
  refine ⟨{ Asset := TrimPrefix (TrimPrefix asset "X") "Z", Balance := balance,
            Price := GoMap.index c.Prices P, PrevPrice := GoMap.index c.PrevPrices P,
            USDValue := balance * GoMap.index c.Prices P }, ?_, rfl, rfl, ?_, ?_, rfl⟩
  · rw [GetAssetValues_eq, List.mem_filterMap]
    refine ⟨(asset, balance), GoMap.mem_of_get? _ _ _ hHeld, ?_⟩
    simp [valuate, hFiat, hPair]
  · simp only [GoMap.index]
    cases GoMap.get? c.Prices P <;> rfl
  · simp only [GoMap.index]
    cases GoMap.get? c.PrevPrices P <;> rfl

/-- C3 at holdings `{XETH: 2.5, ZUSD: 1000}` with `ETH/USD` at 3000: the record
of `XETH` is named `ETH`, with price 3000, previous price 0 and value 7500. -/
theorem C3_GetAssetValues_mapped_record_witness :
    GoMap.get? sampleClient.Balances "XETH" = some (5 / 2) ∧ "XETH" ≠ "ZUSD" ∧
    GoMap.get? AssetMapping "XETH" = some "ETH/USD" ∧
    TrimPrefix (TrimPrefix "XETH" "X") "Z" = "ETH" ∧
    (∃ r ∈ GetAssetValues sampleClient,
      r.Asset = TrimPrefix (TrimPrefix "XETH" "X") "Z" ∧
      r.Balance = 5 / 2 ∧
      r.Price = (match GoMap.get? sampleClient.Prices "ETH/USD" with
                 | some price => price
                 | none => 0) ∧
      r.PrevPrice = (match GoMap.get? sampleClient.PrevPrices "ETH/USD" with
                     | some price => price
                     | none => 0) ∧
      r.USDValue = r.Balance * r.Price) ∧
    GetAssetValues sampleClient =
      [{ Asset := "ETH", Balance := 5 / 2, Price := 3000, PrevPrice := 0, USDValue := 7500 },
       { Asset := "USD", Balance := 1000, Price := 1, PrevPrice := 1, USDValue := 1000 }] :=
  ⟨by decide!, by decide, by decide, by decide,
    C3_GetAssetValues_mapped_record sampleClient "XETH" "ETH/USD" (5 / 2) (by decide!)
      (by decide) (by decide),
    by decide!⟩

/-- C4: when `ZUSD` is held with balance `b`, whatever the ledger holds,
`GetAssetValues` returns the record named `USD` with balance `b`, price 1,
previous price 1 and USD value `b`. -/
theorem C4_GetAssetValues_fiat_record {F : Type} [Zero F] [One F] [Mul F] (c : Client F) (b : F)
    (hHeld : GoMap.get? c.Balances "ZUSD" = some b) :
    ({ Asset := "USD", Balance := b, Price := 1, PrevPrice := 1, USDValue := b } :
      AssetValue F) ∈ GetAssetValues c := by
  rw [GetAssetValues_eq, List.mem_filterMap]
  exact ⟨("ZUSD", b), GoMap.mem_of_get? _ _ _ hHeld, by simp [valuate]⟩

/-- C4 at holdings `{XETH: 2.5, ZUSD: 1000}` with prices in the ledger. -/
theorem C4_GetAssetValues_fiat_record_witness :
    GoMap.get? sampleClient.Balances "ZUSD" = some 1000 ∧
    ({ Asset := "USD", Balance := 1000, Price := 1, PrevPrice := 1, USDValue := 1000 } :
      AssetValue ℚ) ∈ GetAssetValues sampleClient :=
  ⟨by decide!, C4_GetAssetValues_fiat_record sampleClient 1000 (by decide!)⟩

/-- C5: `GetAssetValues` returns, in iteration order, one record for each
holding whose symbol is `ZUSD` or has an `AssetMapping` entry (the record the
valuation rule gives for it) and nothing for the other holdings; so it returns
as many records as there are such holdings. -/
theorem C5_GetAssetValues_one_record_each {F : Type} [Zero F] [One F] [Mul F] (c : Client F) :
    List.Forall₂ (fun holding r => valuate c holding = some r)
      (c.Balances.filter hasRecord) (GetAssetValues c) ∧
    (GetAssetValues c).length = (c.Balances.filter hasRecord).length := by
  have h : List.Forall₂ (fun holding r => valuate c holding = some r)
      (c.Balances.filter hasRecord) (GetAssetValues c) := by
    rw [GetAssetValues_eq]
    exact forall₂_filter_filterMap (valuate c) hasRecord (valuate_isSome c) c.Balances
  exact ⟨h, h.length_eq.symm⟩

/-- C5 at holdings `{XETH: 2.5, ZUSD: 1000}`: exactly two records. -/
theorem C5_GetAssetValues_one_record_each_witness :
    (GetAssetValues sampleClient).length = 2 := by
  rw [(C5_GetAssetValues_one_record_each sampleClient).2]
  decide!

/-- C6, at the frame `[0, {"c":["3050.5","1.2"]}]`: the frame is not a valid
ticker update, and the loop body does not skip it but panics on `data[3]`
(index 3 of a slice of length 2). -/
theorem C6_short_frame_panics :
    tickerOf scanDecimal shortFrame = none ∧
    processFrame scanDecimal freshClient shortFrame = .error (.indexOutOfRange 3 2) := by
  constructor
  · rfl
  · rfl

/-- C7: on a valid ticker frame with pair symbol `P` whose close-price string
parses to `p`, the loop body leaves the client `UpdatePrice(P, p)` gives (so
the current price of `P` is `p`) and calls the sink once, with
`GetAssetValues` of that client. -/
theorem C7_ticker_updates_and_renders_once {F : Type} [Zero F] [One F] [Mul F]
    (sscanf : String → Option F) (c : Client F) (message : JSON) (P : String) (p : F)
    (hTicker : tickerOf sscanf message = some (P, p)) :
    processFrame sscanf c message =
      .ok (UpdatePrice c P p, [GetAssetValues (UpdatePrice c P p)]) ∧
    GetPrice (UpdatePrice c P p) P = p := by
  refine ⟨processFrame_of_tickerOf sscanf c message P p hTicker, ?_⟩
  simp [GetPrice, UpdatePrice, GoMap.index_set_self]

/-- C7 at the frame `[0, {"c":["3050.5","1.2"]}, "ticker", "ETH/USD"]`: the
current price of `ETH/USD` becomes 3050.5 and the sink is called once. -/
theorem C7_ticker_updates_and_renders_once_witness :
    tickerOf scanDecimal tickerFrame = some ("ETH/USD", 6101 / 2) ∧
    (processFrame scanDecimal freshClient tickerFrame =
      .ok (UpdatePrice freshClient "ETH/USD" (6101 / 2),
        [GetAssetValues (UpdatePrice freshClient "ETH/USD" (6101 / 2))]) ∧
     GetPrice (UpdatePrice freshClient "ETH/USD" (6101 / 2)) "ETH/USD" = 6101 / 2) :=
  ⟨by decide!,
    C7_ticker_updates_and_renders_once scanDecimal freshClient tickerFrame "ETH/USD" (6101 / 2)
      (by decide!)⟩

/-- C8: from a fresh client holding `{XETH: b}`, a valid `ETH/USD` tick at `p1`
hands the sink `[{ETH, b, p1, 0, b * p1}]`, and a second valid `ETH/USD` tick
at `p2` hands it `[{ETH, b, p2, p1, b * p2}]`; the loop run on the two frames
makes exactly these two sink calls, in this order. -/
theorem C8_two_ticks_end_to_end {F : Type} [Zero F] [One F] [Mul F]
    (sscanf : String → Option F) (apiKey apiSecret : String) (b p1 p2 : F)
    (frame1 frame2 : JSON)
    (h1 : tickerOf sscanf frame1 = some ("ETH/USD", p1))
    (h2 : tickerOf sscanf frame2 = some ("ETH/USD", p2)) :
    processFrame sscanf (holdingXETH apiKey apiSecret b) frame1 =
      .ok (UpdatePrice (holdingXETH apiKey apiSecret b) "ETH/USD" p1,
          [[{ Asset := "ETH", Balance := b, Price := p1, PrevPrice := 0, USDValue := b * p1 }]]) ∧
    processFrame sscanf (UpdatePrice (holdingXETH apiKey apiSecret b) "ETH/USD" p1) frame2 =
      .ok (UpdatePrice (UpdatePrice (holdingXETH apiKey apiSecret b) "ETH/USD" p1) "ETH/USD" p2,
          [[{ Asset := "ETH", Balance := b, Price := p2, PrevPrice := p1, USDValue := b * p2 }]]) ∧
    StartStreaming sscanf (holdingXETH apiKey apiSecret b) [.ok frame1, .ok frame2] =
      .ok (UpdatePrice (UpdatePrice (holdingXETH apiKey apiSecret b) "ETH/USD" p1) "ETH/USD" p2,
          [[{ Asset := "ETH", Balance := b, Price := p1, PrevPrice := 0, USDValue := b * p1 }],
           [{ Asset := "ETH", Balance := b, Price := p2, PrevPrice := p1, USDValue := b * p2 }]]) := by
  have e1 := processFrame_of_tickerOf sscanf (holdingXETH apiKey apiSecret b) frame1 _ _ h1
  have e2 := processFrame_of_tickerOf sscanf
    (UpdatePrice (holdingXETH apiKey apiSecret b) "ETH/USD" p1) frame2 _ _ h2
  rw [GetAssetValues_XETH _ b rfl] at e1 e2
  have i1 : GoMap.index (UpdatePrice (holdingXETH apiKey apiSecret b) "ETH/USD" p1).Prices
      "ETH/USD" = p1 := by
    simp [UpdatePrice, GoMap.index_set_self]
  have i2 : GoMap.index (UpdatePrice (holdingXETH apiKey apiSecret b) "ETH/USD" p1).PrevPrices
      "ETH/USD" = 0 := by
    simp [UpdatePrice, GoMap.index_set_self, holdingXETH, NewClient, GoMap.index, GoMap.get?]
  have i3 : ∀ c : Client F, GoMap.index (UpdatePrice c "ETH/USD" p2).Prices "ETH/USD" = p2 := by
    intro c
    simp [UpdatePrice, GoMap.index_set_self]
  have i4 : ∀ c : Client F, GoMap.index (UpdatePrice c "ETH/USD" p2).PrevPrices "ETH/USD" =
      GoMap.index c.Prices "ETH/USD" := by
    intro c
    simp [UpdatePrice, GoMap.index_set_self]
  rw [i1, i2] at e1
  rw [i3, i4, i1] at e2
  refine ⟨e1, e2, ?_⟩
  simp [StartStreaming, e1, e2]

/-- C8 at balance 1 with ticks at 3000 and 3100: the sink receives
`[{ETH, 1, 3000, 0, 3000}]` and then `[{ETH, 1, 3100, 3000, 3100}]`. -/
theorem C8_two_ticks_end_to_end_witness :
    tickerOf scanDecimal frame3000 = some ("ETH/USD", 3000) ∧
    tickerOf scanDecimal frame3100 = some ("ETH/USD", 3100) ∧
    Except.map Prod.snd
        (StartStreaming scanDecimal (holdingXETH "key" "c2VjcmV0" 1)
          [.ok frame3000, .ok frame3100]) =
      .ok [[{ Asset := "ETH", Balance := 1, Price := 3000, PrevPrice := 0, USDValue := 3000 }],
           [{ Asset := "ETH", Balance := 1, Price := 3100, PrevPrice := 3000,
              USDValue := 3100 }]] :=
  ⟨by decide!, by decide!,
    by
      rw [(C8_two_ticks_end_to_end scanDecimal "key" "c2VjcmV0" 1 3000 3100 frame3000 frame3100
        (by decide!) (by decide!)).2.2]
      decide!⟩

/-- C9: when the decoded response has a non-empty error list, `GetBalances`
returns the error `API error: [...]` listing the exchange's messages and leaves
the client (holdings and ledger) as it was; and whenever `GetBalances` returns
an error, for whatever reason, the client is as it was. -/
theorem C9_GetBalances_error_keeps_state {F : Type} [Zero F] [LT F]
    [DecidableRel (LT.lt : F → F → Prop)] (sscanf : String → Option F) (c : Client F)
    (balanceResp : BalanceResponse) (hErr : balanceResp.Error ≠ []) :
    GetBalances sscanf c (.ok balanceResp) =
      (some ("API error: " ++ formatStrings balanceResp.Error), c) ∧
    ∀ (fetch : Except String BalanceResponse) (err : String),
      (GetBalances sscanf c fetch).1 = some err → (GetBalances sscanf c fetch).2 = c := by
  have hlen : balanceResp.Error.length > 0 := List.length_pos.mpr hErr
  constructor
  · simp [GetBalances, hlen]
  · intro fetch err h
    cases fetch with
    | error e => rfl
    | ok resp =>
      by_cases hl : resp.Error.length > 0
      · simp [GetBalances, hl]
      · simp [GetBalances, hl] at h

/-- C9 at the response `{"error":["EAPI:Invalid key"],"result":{"XETH":"2.5"}}`
on a client holding `{XETH: 2.5, ZUSD: 1000}`: the error names the message and
the client is unchanged. -/
theorem C9_GetBalances_error_keeps_state_witness :
    rejectedResponse.Error ≠ [] ∧
    GetBalances scanDecimal sampleClient (.ok rejectedResponse) =
      (some "API error: [EAPI:Invalid key]", sampleClient) :=
  ⟨by decide,
    (C9_GetBalances_error_keeps_state scanDecimal sampleClient rejectedResponse (by decide)).1⟩

/-- C10: for every holdings map, the list `pairs` that `Connect` builds from it
holds exactly the `AssetMapping` pairs of the held symbols other than `ZUSD`
that have a mapping, one entry per such holding. Once the balances are fetched
and the socket is dialled, `Connect` hands `WriteJSON` the one message
`{event: "subscribe", pair: pairs, subscription: {name: "ticker"}}` and returns
what `WriteJSON` returns when the list is not empty, and writes nothing and
returns no error when it is empty. -/
theorem C10_Connect_subscribes_to_held_pairs {F : Type} [Zero F] [LT F]
    [DecidableRel (LT.lt : F → F → Prop)] (holdings : GoMap F) (sscanf : String → Option F)
    (c c1 : Client F) (fetch : Except String BalanceResponse) (writeErr : Option String)
    (hFetch : GetBalances sscanf c fetch = (none, c1)) :
    (∀ pair : String, pair ∈ subscriptionPairs holdings ↔
      ∃ asset balance, (asset, balance) ∈ holdings ∧ asset ≠ "ZUSD" ∧
        GoMap.get? AssetMapping asset = some pair) ∧
    (subscriptionPairs holdings).length = (holdings.filter hasFeed).length ∧
    (subscriptionPairs c1.Balances ≠ [] →
      Connect sscanf c fetch none writeErr =
        (writeErr,
          { c1 with
            WsConn := some { writes := [{ event := "subscribe",
                                          pair := subscriptionPairs c1.Balances,
                                          subscription := [("name", "ticker")] }],
                             closes := 0 } })) ∧
    (subscriptionPairs c1.Balances = [] →
      Connect sscanf c fetch none writeErr =
        (none, { c1 with WsConn := some { writes := [], closes := 0 } })) := by
  refine ⟨mem_subscriptionPairs holdings, ?_, ?_, ?_⟩
  · simp only [subscriptionPairs, foldl_addPair, List.nil_append]
    exact length_filterMap_hasFeed holdings
  · intro hne
    have hlen : (subscriptionPairs c1.Balances).length > 0 := List.length_pos.mpr hne
    simp [Connect, hFetch, hlen, Conn.fresh, Conn.WriteJSON, subscribeMessage]
  · intro he
    simp [Connect, hFetch, he, Conn.fresh]

/-- C10 at the balances `{"XETH":"2.5","SOL":"0","ZUSD":"1000"}`: the one
message subscribes to `ETH/USD` alone. -/
theorem C10_Connect_subscribes_to_held_pairs_witness :
    GetBalances scanDecimal freshClient (.ok sampleResponse) =
      (none, { freshClient with Balances := [("XETH", 5 / 2), ("ZUSD", 1000)] }) ∧
    subscriptionPairs [("XETH", (5 / 2 : ℚ)), ("ZUSD", 1000)] = ["ETH/USD"] ∧
    Connect scanDecimal freshClient (.ok sampleResponse) none none =
      (none,
        { freshClient with
          Balances := [("XETH", 5 / 2), ("ZUSD", 1000)],
          WsConn := some { writes := [{ event := "subscribe", pair := ["ETH/USD"],
                                        subscription := [("name", "ticker")] }],
                           closes := 0 } }) :=
  ⟨by decide!, by decide!,
    by
      rw [(C10_Connect_subscribes_to_held_pairs [] scanDecimal freshClient
        { freshClient with Balances := [("XETH", 5 / 2), ("ZUSD", 1000)] }
        (.ok sampleResponse) none (by decide!)).2.2.1 (by decide!)]
      decide!⟩

/-! ## Lemmas on the ledger invariant -/

theorem GoMap.mem_set {α : Type} (m : GoMap α) (k : String) (v : α) (e : String × α)
    (h : e ∈ GoMap.set m k v) : e ∈ m ∨ e = (k, v) := by
  induction m with
  | nil =>
    simp only [GoMap.set, List.mem_singleton] at h
    exact Or.inr h
  | cons e0 rest ih =>
    obtain ⟨k0, v0⟩ := e0
    by_cases h0 : k0 = k
    · simp only [GoMap.set, h0, if_true, List.mem_cons] at h
      rcases h with h | h
      · exact Or.inr h
      · exact Or.inl (List.mem_cons_of_mem _ h)
    · simp only [GoMap.set, h0, if_false, List.mem_cons] at h
      rcases h with h | h
      · exact Or.inl (by simp [h])
      · rcases ih h with h1 | h1
        · exact Or.inl (List.mem_cons_of_mem _ h1)
        · exact Or.inr h1

theorem GoMap.index_zero_or_mem {α : Type} [Zero α] (m : GoMap α) (k : String) :
    GoMap.index m k = 0 ∨ (k, GoMap.index m k) ∈ m := by
  unfold GoMap.index
  cases h : GoMap.get? m k with
  | none => exact Or.inl rfl
  | some v => exact Or.inr (GoMap.mem_of_get? m k v h)

theorem UpdatePrice_LedgerNonNeg {F : Type} [Zero F] [LE F] (h0 : (0 : F) ≤ 0)
    (c : Client F) (P : String) (p : F) (hc : LedgerNonNeg c) (hp : 0 ≤ p) :
    LedgerNonNeg (UpdatePrice c P p) := by
  constructor
  · intro e he
    rcases GoMap.mem_set _ _ _ _ he with h | h
    · exact hc.1 e h
    · rw [h]
      exact hp
  · intro e he
    rcases GoMap.mem_set _ _ _ _ he with h | h
    · exact hc.2 e h
    · rw [h]
      rcases GoMap.index_zero_or_mem c.Prices P with hz | hm
      · simp only [hz]
        exact h0
      · exact hc.1 _ hm

theorem processFrame_LedgerNonNeg {F : Type} [Zero F] [One F] [Mul F] [LE F]
    (h0 : (0 : F) ≤ 0) (sscanf : String → Option F) (c c1 : Client F) (message : JSON)
    (calls : List (List (AssetValue F)))
    (hTick : ∀ P p, tickerOf sscanf message = some (P, p) → 0 ≤ p)
    (hc : LedgerNonNeg c)
    (hStep : processFrame sscanf c message = .ok (c1, calls)) : LedgerNonNeg c1 := by
  cases hT : tickerOf sscanf message with
  | some Pp =>
    obtain ⟨P, p⟩ := Pp
    rw [processFrame_of_tickerOf sscanf c message P p hT] at hStep
    simp only [Except.ok.injEq, Prod.mk.injEq] at hStep
    rw [← hStep.1]
    exact UpdatePrice_LedgerNonNeg h0 c P p hc (hTick P p hT)
  | none =>
    cases hS : shortTicker message with
    | true =>
      obtain ⟨n, _, hn⟩ := processFrame_of_shortTicker sscanf c message hS
      rw [hn] at hStep
      exact absurd hStep (by simp)
    | false =>
      rw [processFrame_of_not_ticker sscanf c message hT hS] at hStep
      simp only [Except.ok.injEq, Prod.mk.injEq] at hStep
      rw [← hStep.1]
      exact hc

theorem StartStreaming_LedgerNonNeg {F : Type} [Zero F] [One F] [Mul F] [LE F]
    (h0 : (0 : F) ≤ 0) (sscanf : String → Option F) (reads : List (Except String JSON))
    (c c1 : Client F) (calls : List (List (AssetValue F)))
    (hTicks : ∀ message, Except.ok message ∈ reads →
      ∀ P p, tickerOf sscanf message = some (P, p) → 0 ≤ p)
    (hc : LedgerNonNeg c)
    (hRun : StartStreaming sscanf c reads = .ok (c1, calls)) : LedgerNonNeg c1 := by
  induction reads generalizing c calls with
  | nil =>
    simp only [StartStreaming, Except.ok.injEq, Prod.mk.injEq] at hRun
    rw [← hRun.1]
    exact hc
  | cons r rest ih =>
    cases r with
    | error e =>
      simp only [StartStreaming, Except.ok.injEq, Prod.mk.injEq] at hRun
      rw [← hRun.1]
      exact hc
    | ok message =>
      simp only [StartStreaming] at hRun
      cases hStep : processFrame sscanf c message with
      | error e =>
        rw [hStep] at hRun
        exact absurd hRun (by simp)
      | ok res =>
        obtain ⟨c2, calls2⟩ := res
        rw [hStep] at hRun
        simp only at hRun
        cases hRest : StartStreaming sscanf c2 rest with
        | error e =>
          rw [hRest] at hRun
          exact absurd hRun (by simp)
        | ok res2 =>
          obtain ⟨c3, calls3⟩ := res2
          rw [hRest] at hRun
          simp only [Except.ok.injEq, Prod.mk.injEq] at hRun
          obtain ⟨h1, _⟩ := hRun
          subst h1
          have hc2 : LedgerNonNeg c2 :=
            processFrame_LedgerNonNeg h0 sscanf c c2 message calls2
              (hTicks message (List.mem_cons_self _ _)) hc hStep
          exact ih c2 calls3 (fun m hm => hTicks m (List.mem_cons_of_mem _ hm)) hc2 hRest

/-! ## Claims on the ledger invariant and on `Close` -/

/-- C11 fails at the frame `[0, {"c":["-5","1.2"]}, "ticker", "ETH/USD"]`: the
scanner accepts `-5`, the loop stores it as the current price of `ETH/USD`, and
the ledger of the fresh client then holds a price below 0. -/
theorem C11_negative_price_enters_ledger :
    ParseFloat scanDecimal "-5" = some (-5) ∧
    StartStreaming scanDecimal freshClient [.ok negativeFrame] =
      .ok (UpdatePrice freshClient "ETH/USD" (-5), [[]]) ∧
    GoMap.get? (UpdatePrice freshClient "ETH/USD" (-5)).Prices "ETH/USD" = some (-5) ∧
    ¬ LedgerNonNeg (UpdatePrice freshClient "ETH/USD" (-5)) := by
  refine ⟨by decide!, by decide!, by decide!, ?_⟩
  intro h
  have hmem : (("ETH/USD", -5) : String × ℚ) ∈ (UpdatePrice freshClient "ETH/USD" (-5)).Prices := by
    decide!
  have hle : (0 : ℚ) ≤ -5 := h.1 _ hmem
  norm_num at hle

/-- C11 as amended: starting from a fresh client with any holdings, after the
loop has processed any run of frames in which every valid ticker update carries
a close price of at least 0, every value in `Prices` and in `PrevPrices` is at
least 0. -/
theorem C11_ledger_nonneg_when_ticks_nonneg {F : Type} [Zero F] [One F] [Mul F] [LE F]
    (h0 : (0 : F) ≤ 0) (sscanf : String → Option F) (apiKey apiSecret : String)
    (holdings : GoMap F) (reads : List (Except String JSON)) (c1 : Client F)
    (calls : List (List (AssetValue F)))
    (hTicks : ∀ message, Except.ok message ∈ reads →
      ∀ P p, tickerOf sscanf message = some (P, p) → 0 ≤ p)
    (hRun : StartStreaming sscanf
      { (NewClient apiKey apiSecret : Client F) with Balances := holdings } reads =
        .ok (c1, calls)) :
    LedgerNonNeg c1 := by
  refine StartStreaming_LedgerNonNeg h0 sscanf reads _ c1 calls hTicks ?_ hRun
  constructor
  · intro e he
    simp [NewClient] at he
  · intro e he
    simp [NewClient] at he

/-- C11 as amended, at a client holding `{XETH: 1}` and ticks at 3000 and 3100. -/
theorem C11_ledger_nonneg_when_ticks_nonneg_witness :
    (0 : ℚ) ≤ 0 ∧
    StartStreaming scanDecimal
        { (NewClient "key" "c2VjcmV0" : Client ℚ) with Balances := [("XETH", 1)] }
        [.ok frame3000, .ok frame3100] =
      .ok (UpdatePrice (UpdatePrice (holdingXETH "key" "c2VjcmV0" (1 : ℚ)) "ETH/USD" 3000)
            "ETH/USD" 3100,
          [[{ Asset := "ETH", Balance := 1, Price := 3000, PrevPrice := 0, USDValue := 3000 }],
           [{ Asset := "ETH", Balance := 1, Price := 3100, PrevPrice := 3000,
              USDValue := 3100 }]]) ∧
    LedgerNonNeg (UpdatePrice (UpdatePrice (holdingXETH "key" "c2VjcmV0" (1 : ℚ)) "ETH/USD" 3000)
      "ETH/USD" 3100) :=
  ⟨le_refl 0, by decide!,
    C11_ledger_nonneg_when_ticks_nonneg (le_refl 0) scanDecimal "key" "c2VjcmV0" [("XETH", 1)]
      [.ok frame3000, .ok frame3100]
      (UpdatePrice (UpdatePrice (holdingXETH "key" "c2VjcmV0" (1 : ℚ)) "ETH/USD" 3000) "ETH/USD" 3100)
      [[{ Asset := "ETH", Balance := 1, Price := 3000, PrevPrice := 0, USDValue := 3000 }],
       [{ Asset := "ETH", Balance := 1, Price := 3100, PrevPrice := 3000, USDValue := 3100 }]]
      (by
        intro message hm P p hT
        simp only [List.mem_cons, Except.ok.injEq, List.mem_singleton, List.not_mem_nil,
          or_false] at hm
        rcases hm with hm | hm
        · subst hm
          have h3 : tickerOf scanDecimal frame3000 = some ("ETH/USD", 3000) := by decide!
          rw [h3] at hT
          simp only [Option.some.injEq, Prod.mk.injEq] at hT
          rw [← hT.2]
          norm_num
        · subst hm
          have h3 : tickerOf scanDecimal frame3100 = some ("ETH/USD", 3100) := by decide!
          rw [h3] at hT
          simp only [Option.some.injEq, Prod.mk.injEq] at hT
          rw [← hT.2]
          norm_num)
      (by decide!)⟩

/-- C14 fails on a connected client: the first `Close` closes the connection,
and a second `Close` closes it again (two `Close` calls on the connection) and
returns whatever that second call on the connection returns, an error
included. -/
theorem C14_second_Close_closes_again :
    Close connectedClient none =
      (none, { connectedClient with WsConn := some { writes := [], closes := 1 } }) ∧
    Close (Close connectedClient none).2 none =
      (none, { connectedClient with WsConn := some { writes := [], closes := 2 } }) ∧
    Close (Close connectedClient none).2 (some "use of closed network connection") =
      (some "use of closed network connection",
        { connectedClient with WsConn := some { writes := [], closes := 2 } }) := by
  refine ⟨by decide, by decide, by decide⟩

/-- C14 as amended: on a client that never connected `Close` returns no error
and changes nothing, on the first call and on a second one; on a client with a
connection every call of `Close` calls `Close` on the connection once more,
keeps the connection in the client and returns what that call returns. -/
theorem C14_Close_calls_connection_each_time {F : Type} (c : Client F)
    (closeErr closeErr2 : Option String) :
    (c.WsConn = none →
      Close c closeErr = (none, c) ∧ Close (Close c closeErr).2 closeErr2 = (none, c)) ∧
    (∀ conn : Conn, c.WsConn = some conn →
      Close c closeErr =
        (closeErr, { c with WsConn := some { conn with closes := conn.closes + 1 } }) ∧
      Close (Close c closeErr).2 closeErr2 =
        (closeErr2, { c with WsConn := some { conn with closes := conn.closes + 2 } })) := by
  constructor
  · intro h
    have h1 : Close c closeErr = (none, c) := by simp [Close, h]
    refine ⟨h1, ?_⟩
    rw [h1]
    simp [Close, h]
  · intro conn h
    constructor
    · simp [Close, h, Conn.Close]
    · simp [Close, h, Conn.Close]

/-- C14 as amended, at a fresh client (never connected) and at a connected one. -/
theorem C14_Close_calls_connection_each_time_witness :
    freshClient.WsConn = none ∧
    (Close freshClient none = (none, freshClient) ∧
      Close (Close freshClient none).2 none = (none, freshClient)) ∧
    connectedClient.WsConn = some Conn.fresh ∧
    (Close connectedClient none =
        (none,
          { connectedClient with
            WsConn := some { Conn.fresh with closes := Conn.fresh.closes + 1 } }) ∧
      Close (Close connectedClient none).2 none =
        (none,
          { connectedClient with
            WsConn := some { Conn.fresh with closes := Conn.fresh.closes + 2 } })) :=
  ⟨rfl, (C14_Close_calls_connection_each_time freshClient none none).1 rfl, rfl,
    (C14_Close_calls_connection_each_time connectedClient none none).2 Conn.fresh rfl⟩

/-! ## Lemmas on the display -/

theorem Repeat_data_bar (n : Nat) : (Repeat "═" n).data = List.replicate n '═' := by
  induction n with
  | zero => rfl
  | succ n ih =>
    simp only [Repeat, String.data_append, ih, List.replicate_succ]
    rfl

theorem splitLines_append (pre rest : List Char) (h : '\n' ∉ pre) :
    splitLines (pre ++ '\n' :: rest) = pre :: splitLines rest := by
  induction pre with
  | nil => simp [splitLines]
  | cons ch pre ih =>
    simp only [List.mem_cons, not_or] at h
    have hne : ¬ ch = '\n' := fun e => h.1 e.symm
    simp only [List.cons_append, splitLines, hne, if_false, List.append_eq, ih h.2]

theorem stripANSI_replicate_bar (n : Nat) (rest : List Char) :
    stripANSI false (List.replicate n '═' ++ rest) =
      List.replicate n '═' ++ stripANSI false rest := by
  induction n with
  | zero => rfl
  | succ n ih =>
    have hne : ¬ ('═' = '\x1b') := by decide
    simp only [List.replicate_succ, List.cons_append, stripANSI, hne, if_false, List.append_eq, ih]

theorem visibleLength_topBorder (n : Nat) :
    visibleLength (['\x1b', '[', 'H', '\x1b', '[', '2', 'J', '\x1b', '[', '4', '0', 'm',
        '\x1b', '[', '3', '6', 'm', '╔'] ++
      (List.replicate n '═' ++ ['╗', '\x1b', '[', '0', 'm'])) = n + 2 := by
  have h1 : ∀ rest : List Char, stripANSI false (['\x1b', '[', 'H', '\x1b', '[', '2', 'J',
      '\x1b', '[', '4', '0', 'm', '\x1b', '[', '3', '6', 'm', '╔'] ++ rest) =
      '╔' :: stripANSI false rest := by
    intro rest
    rfl
  have h2 : stripANSI false ['╗', '\x1b', '[', '0', 'm'] = ['╗'] := by decide
  unfold visibleLength
  rw [h1, stripANSI_replicate_bar, h2]
  simp

theorem RenderPortfolio_data {F : Type} [Zero F] [Add F] [LT F]
    [DecidableRel (LT.lt : F → F → Prop)] [LE F] [DecidableRel (LE.le : F → F → Prop)]
    [OfNat F 1000] (fmtFloat : Nat → F → String)
    (sortSlice : (AssetValue F → AssetValue F → Bool) → List (AssetValue F) →
      List (AssetValue F))
    (d : Display) (assets : List (AssetValue F)) :
    ∃ rest : List Char, (RenderPortfolio fmtFloat sortSlice d assets).data =
      (['\x1b', '[', 'H', '\x1b', '[', '2', 'J', '\x1b', '[', '4', '0', 'm',
        '\x1b', '[', '3', '6', 'm', '╔'] ++
      (List.replicate d.width.toNat '═' ++ ['╗', '\x1b', '[', '0', 'm'])) ++ '\n' :: rest := by
  simp only [RenderPortfolio, renderHeader, String.data_append, List.append_assoc,
    Repeat_data_bar]
  exact ⟨_, rfl⟩

theorem calculateWidth_bounds (w : Int) :
    calculateWidth w = (if w < 60 then 60 else if w > 100 then 100 else w) ∧
    60 ≤ calculateWidth w ∧ calculateWidth w ≤ 100 := by
  unfold calculateWidth minWidth maxWidth
  split_ifs <;> omega

/-! ## Claim on the display -/

/-- C15: a display built by `NewDisplayWithWriter(_, w)` has its width clamped
into `[60, 100]`; but the first line `RenderPortfolio` writes, the top border,
has that width plus 2 characters once its colour codes are removed, so it is
longer than the width, for every requested width and every list of assets. -/
theorem C15_top_border_exceeds_width {F : Type} [Zero F] [Add F] [LT F]
    [DecidableRel (LT.lt : F → F → Prop)] [LE F] [DecidableRel (LE.le : F → F → Prop)]
    [OfNat F 1000] (fmtFloat : Nat → F → String)
    (sortSlice : (AssetValue F → AssetValue F → Bool) → List (AssetValue F) →
      List (AssetValue F))
    (w : Int) (assets : List (AssetValue F)) :
    (NewDisplayWithWriter w).width = (if w < 60 then 60 else if w > 100 then 100 else w) ∧
    60 ≤ (NewDisplayWithWriter w).width ∧ (NewDisplayWithWriter w).width ≤ 100 ∧
    ∃ line ∈ splitLines (RenderPortfolio fmtFloat sortSlice (NewDisplayWithWriter w) assets).data,
      (visibleLength line : Int) = (NewDisplayWithWriter w).width + 2 := by
  obtain ⟨hEq, hLo, hHi⟩ := calculateWidth_bounds w
  refine ⟨hEq, hLo, hHi, ?_⟩
  obtain ⟨rest, hData⟩ := RenderPortfolio_data fmtFloat sortSlice (NewDisplayWithWriter w) assets
  have hNo : '\n' ∉ (['\x1b', '[', 'H', '\x1b', '[', '2', 'J', '\x1b', '[', '4', '0', 'm',
      '\x1b', '[', '3', '6', 'm', '╔'] ++
      (List.replicate (NewDisplayWithWriter w).width.toNat '═' ++
        ['╗', '\x1b', '[', '0', 'm'])) := by
    intro hmem
    simp only [List.mem_append, List.mem_replicate] at hmem
    rcases hmem with h | h | h
    · revert h
      decide
    · exact absurd h.2 (by decide)
    · revert h
      decide
  refine ⟨['\x1b', '[', 'H', '\x1b', '[', '2', 'J', '\x1b', '[', '4', '0', 'm',
      '\x1b', '[', '3', '6', 'm', '╔'] ++
      (List.replicate (NewDisplayWithWriter w).width.toNat '═' ++
        ['╗', '\x1b', '[', '0', 'm']), ?_, ?_⟩
  · rw [hData, splitLines_append _ _ hNo]
    exact List.mem_cons_self _ _
  · rw [visibleLength_topBorder]
    have hw : (NewDisplayWithWriter w).width = calculateWidth w := rfl
    rw [hw]
    omega

/-! ## Lemmas on signing -/

theorem toBytesBE_length (n x : Nat) : (toBytesBE n x).length = n := by
  induction n with
  | zero => rfl
  | succ n ih => simp [toBytesBE, ih]

theorem sha2Sum_length (p : Sha2) (msg : List Nat) :
    (sha2Sum p msg).length = 8 * (p.bits / 8) := by
  simp only [sha2Sum, List.length_append, toBytesBE_length]
  omega

theorem Sum512_length (msg : List Nat) : (Sum512 msg).length = 64 := by
  rw [Sum512, sha2Sum_length]
  rfl

theorem Sum256_length (msg : List Nat) : (Sum256 msg).length = 32 := by
  rw [Sum256, sha2Sum_length]
  rfl

theorem hmacSHA512_length (key msg : List Nat) : (hmacSHA512 key msg).length = 64 := by
  simp only [hmacSHA512, Sum512_length]

theorem encodeChars_length (src : List Nat) :
    (encodeChars src).length = 4 * ((src.length + 2) / 3) := by
  induction src using encodeChars.induct with
  | case1 a b c rest ih =>
    simp only [encodeChars, List.length_cons, ih]
    omega
  | case2 a b => simp [encodeChars]
  | case3 a => simp [encodeChars]
  | case4 => rfl

theorem EncodeToString_length (src : List Nat) :
    (EncodeToString src).length = 4 * ((src.length + 2) / 3) := by
  simp only [EncodeToString, String.length, encodeChars_length]

theorem GenerateSignature_length {F : Type} (c : Client F) (urlPath postData nonce : String) :
    (GenerateSignature c urlPath postData nonce).length = 88 := by
  simp only [GenerateSignature, EncodeToString_length, hmacSHA512_length]

theorem bytesOfChars_append (xs ys : List Char) :
    bytesOfChars (xs ++ ys) = bytesOfChars xs ++ bytesOfChars ys := by
  induction xs with
  | nil => rfl
  | cons ch rest ih => simp [bytesOfChars, ih]

theorem bytesOf_append (s t : String) : bytesOf (s ++ t) = bytesOf s ++ bytesOf t := by
  simp [bytesOf, String.data_append, bytesOfChars_append]

/-! ## Claims on signing -/

/-- C12 fails at the secret `test-secret`: `DecodeString` reports corrupt input
after three bytes, and `GenerateSignature` still returns a signature, keyed
with those three bytes. -/
theorem C12_corrupt_secret_still_signs :
    DecodeString "test-secret" = ([181, 235, 45], true) ∧
    GenerateSignature plainSecretClient "/0/private/Balance" "nonce=1" "1" =
      "rAnU2Y+hJTQ3IdjVQpUbpkxEEhrHX69YvknUTrsBBOmBz8QBTIOE6JsOSJH400Oq4T0GbNs1/+Khn1LRZkQsOw==" := by
  constructor
  · decide
  · decide!

/-- C12 as amended: for every secret, whether or not it decodes as standard
base64, `GenerateSignature` returns a signature of 88 characters, the encoding
of the MAC keyed with the bytes `DecodeString` returns; the decode error is
dropped, so a client whose secret yields the same bytes gets the same
signature. -/
theorem C12_GenerateSignature_never_fails {F : Type} (c : Client F)
    (urlPath postData nonce : String) :
    GenerateSignature c urlPath postData nonce =
      EncodeToString (hmacSHA512 (DecodeString c.ApiSecret).1
        (bytesOf urlPath ++ Sum256 (bytesOf (nonce ++ postData)))) ∧
    (GenerateSignature c urlPath postData nonce).length = 88 ∧
    ∀ c2 : Client F, (DecodeString c2.ApiSecret).1 = (DecodeString c.ApiSecret).1 →
      GenerateSignature c2 urlPath postData nonce = GenerateSignature c urlPath postData nonce := by
  refine ⟨rfl, GenerateSignature_length c urlPath postData nonce, ?_⟩
  intro c2 h
  simp only [GenerateSignature, h]

/-- C12 as amended, at the corrupt secret `test-secret` and the valid secret
`test`: both yield the key `b5 eb 2d` and so the same signature. -/
theorem C12_GenerateSignature_never_fails_witness :
    DecodeString plainSecretClient.ApiSecret = ([181, 235, 45], true) ∧
    DecodeString shortSecretClient.ApiSecret = ([181, 235, 45], false) ∧
    (GenerateSignature plainSecretClient "/0/private/Balance" "nonce=1" "1").length = 88 ∧
    GenerateSignature shortSecretClient "/0/private/Balance" "nonce=1" "1" =
      GenerateSignature plainSecretClient "/0/private/Balance" "nonce=1" "1" :=
  ⟨by decide, by decide,
    (C12_GenerateSignature_never_fails plainSecretClient "/0/private/Balance" "nonce=1" "1").2.1,
    (C12_GenerateSignature_never_fails plainSecretClient "/0/private/Balance" "nonce=1"
      "1").2.2 shortSecretClient (by decide)⟩

/-- C13: for a secret that decodes as standard base64 to the bytes `key`,
`GenerateSignature` returns the standard base64 encoding of the HMAC-SHA512,
keyed with `key`, of the path followed by the SHA-256 digest of nonce and body;
the MAC has 64 bytes and the signature 88 characters; and the signature
depends on the client through its secret alone. -/
theorem C13_GenerateSignature_is_encoded_hmac {F : Type} (c : Client F)
    (urlPath postData nonce : String) (key : List Nat)
    (hSecret : DecodeString c.ApiSecret = (key, false)) :
    GenerateSignature c urlPath postData nonce =
      EncodeToString (hmacSHA512 key
        (bytesOf urlPath ++ Sum256 (bytesOf nonce ++ bytesOf postData))) ∧
    (hmacSHA512 key (bytesOf urlPath ++ Sum256 (bytesOf nonce ++ bytesOf postData))).length =
      64 ∧
    (GenerateSignature c urlPath postData nonce).length = 88 ∧
    ∀ c2 : Client F, c2.ApiSecret = c.ApiSecret →
      GenerateSignature c2 urlPath postData nonce = GenerateSignature c urlPath postData nonce := by
  refine ⟨?_, hmacSHA512_length _ _, GenerateSignature_length c urlPath postData nonce, ?_⟩
  · simp only [GenerateSignature, bytesOf_append, hSecret]
  · intro c2 h
    simp only [GenerateSignature, h]

/-- C13 at the secret of `TestGenerateSignature`, the path `/0/private/Balance`,
the body `nonce=1` and the nonce `1`. -/
theorem C13_GenerateSignature_is_encoded_hmac_witness :
    DecodeString signingClient.ApiSecret =
      ([116, 101, 115, 116, 45, 115, 101, 99, 114, 101, 116], false) ∧
    GenerateSignature signingClient "/0/private/Balance" "nonce=1" "1" =
      "0ntgbHUfTEw4IJdUw+OMPOZxi5sPu3VvUIzym+gl44vQtpEzSLBxVRE/yv7idKt2peWHJLyEKwPr2VSKz5+MWw==" ∧
    (GenerateSignature signingClient "/0/private/Balance" "nonce=1" "1").length = 88 :=
  ⟨by decide, by decide!,
    (C13_GenerateSignature_is_encoded_hmac signingClient "/0/private/Balance" "nonce=1" "1"
      [116, 101, 115, 116, 45, 115, 101, 99, 114, 101, 116] (by decide)).2.2.1⟩

end Kraken
